import Mathlib

/-!
Verification of the status-page repository: a shallow embedding of
`monitoring/status_engine.py`, `atlassian_statuspage/incident_manager.py`,
`atlassian_statuspage/client.py` and `reconcile.py`, together with theorems
settling the frozen claims.

Modelling conventions:
* Python floats are modelled as rationals (`ℚ`); timestamps as rationals
  (seconds); machine ints as `Int`/`Nat`.
* Python dicts are modelled either as association lists (`List (String × α)`,
  insertion-ordered, later writes overwrite in place, like `dict`) or as total
  functions when only `.get` with a default is used.
* Python exceptions are modelled with `Except PyErr`; a `try/except SomeError`
  catches only the matching constructor, any other constructor propagates.
* Remote HTTP calls are modelled by client records whose outcome per call is a
  parameter; every call that is actually issued is recorded in a trace list.
-/

/-- Python exception classes that matter to the embedded code:
`StatuspageError`, `GrafanaClientError` (both caught by the respective
`except` clauses) and `TypeError` (raised by the interpreter, never caught
in the embedded modules). -/
inductive PyErr where
  | statuspage (msg : String)
  | grafana (msg : String)
  | typeError (msg : String)
deriving Repr, DecidableEq

/-- Association-list lookup, mirroring Python `dict.__getitem__` /`dict.get`:
later insertions for the same key overwrite, so the rightmost binding wins. -/
def dictFind {α : Type} : List (String × α) → String → Option α
  | [], _ => none
  | p :: rest, k =>
    match dictFind rest k with
    | some v => some v
    | none => if p.1 == k then some p.2 else none

/-- Association-list insert mirroring Python `d[k] = v`: overwrite in place if
the key exists, append otherwise. -/
def dictInsert {α : Type} (l : List (String × α)) (k : String) (v : α) :
    List (String × α) :=
  if l.any (fun p => p.1 == k) then
    l.map (fun p => if p.1 == k then (k, v) else p)
  else
    l ++ [(k, v)]

/-- Association-list delete mirroring Python `del d[k]`. -/
def dictRemove {α : Type} (l : List (String × α)) (k : String) :
    List (String × α) :=
  l.filter (fun p => ¬ p.1 == k)

/-- Keys of an association list (with duplicates, in order). -/
def dictKeys {α : Type} (l : List (String × α)) : List String :=
  l.map Prod.fst

/-! ## monitoring/status_engine.py -/

/-- Thresholds dataclass from `monitoring/config.py` (with its defaults). -/
structure Thresholds where
  reachability_operational : ℚ := 95
  reachability_degraded : ℚ := 75
  latency_operational_ms : ℚ := 200
  latency_degraded_ms : ℚ := 1000
deriving Repr, DecidableEq

/-- Severity list from `status_engine.py`, ordered worst first. -/
def STATUS_SEVERITY : List String :=
  ["major_outage", "degraded_performance", "operational"]

/-- Embedding of `determine_component_status`: `None` metrics give
`major_outage`; otherwise two-tier cutoffs per metric, worst of the two wins
(the worst is found by scanning `STATUS_SEVERITY` as in the source). -/
def determine_component_status (reachability latency : Option ℚ)
    (t : Thresholds) : String :=
  match reachability, latency with
  | none, _ => "major_outage"
  | _, none => "major_outage"
  | some r, some l =>
    let reach_status :=
      if r ≥ t.reachability_operational then "operational"
      else if r ≥ t.reachability_degraded then "degraded_performance"
      else "major_outage"
    let lat_status :=
      if l ≤ t.latency_operational_ms then "operational"
      else if l ≤ t.latency_degraded_ms then "degraded_performance"
      else "major_outage"
    (STATUS_SEVERITY.find?
      (fun level => level == reach_status || level == lat_status)).getD
      "operational"

/-- Embedding of `determine_overall_status`: worst status present, or
`operational` for the empty list. -/
def determine_overall_status (component_statuses : List String) : String :=
  if component_statuses.isEmpty then "operational"
  else
    (STATUS_SEVERITY.find?
      (fun level => component_statuses.contains level)).getD "operational"

/-- Rank of a status in the severity order `major_outage >
degraded_performance > operational` (larger is worse). -/
def severityRank (s : String) : Nat :=
  if s = "major_outage" then 2
  else if s = "degraded_performance" then 1
  else 0

/-- Optional per-metric threshold override: the two cutoffs of one metric,
each field optional (shape of the `thresholds` entries in `config.yaml` /
`checks.json`). -/
structure ThrOverridePart where
  operational : Option ℚ := none
  degraded : Option ℚ := none
deriving Repr, DecidableEq

/-- Optional per-check threshold override block. -/
structure ThrOverride where
  reachability : ThrOverridePart := {}
  latency_ms : ThrOverridePart := {}
deriving Repr, DecidableEq

/-- One check entry of `config/checks.json` as produced by
`generate_checks_json` in `reconcile.py`. -/
structure CheckDef where
  name : String
  job_label : String
  url : String := ""
  description : String := ""
  thresholds : Option ThrOverride := none
deriving Repr, DecidableEq

/-- Python `round(x, 2)` on exact rationals: round half to even at two
decimal places (binary-float representation effects are out of scope). -/
def pyRound2 (q : ℚ) : ℚ :=
  let x := q * 100
  let n : ℤ := ⌊x⌋
  let f : ℚ := x - n
  (if f > 1/2 then (n + 1 : ℚ)
   else if f < 1/2 then (n : ℚ)
   else if n % 2 = 0 then (n : ℚ) else (n + 1 : ℚ)) / 100

/-- One per-component entry of the status report document. -/
structure ReportComponent where
  name : String
  description : String := ""
  status : String
  reachability : Option ℚ := none
  latency_ms : Option ℚ := none
  last_checked : String := ""
deriving Repr, DecidableEq

/-- The status report document. -/
structure Report where
  last_updated : String
  overall_status : String
  components : List ReportComponent
deriving Repr, DecidableEq

/-- Embedding of `build_status_report`.  `metrics` models the dict
`job_label -> (reachability, latency)` together with its
`.get(job_label, (None, None))` default; `now` is the timestamp string.
Note: the single global `thresholds` argument is used for every check —
the per-check `thresholds` field of a `CheckDef` is never read here,
exactly as in the source. -/
def build_status_report (checks : List CheckDef)
    (metrics : String → Option ℚ × Option ℚ) (thresholds : Thresholds)
    (now : String) : Report :=
  let components := checks.map (fun check =>
    let m := metrics check.job_label
    let status := determine_component_status m.1 m.2 thresholds
    { name := check.name
      description := check.description
      status := status
      reachability := m.1.map pyRound2
      latency_ms := m.2.map pyRound2
      last_checked := now : ReportComponent })
  { last_updated := now
    overall_status :=
      determine_overall_status (components.map ReportComponent.status)
    components := components }

/-! ## reconcile.py: config model and generate_checks_json -/

/-- One endpoint entry of `config.yaml` (`endpoints:` block), with the
defaults the source applies via `.get`: `frequency` 60000, `component` and
`metric` opt-in flags true, `probes` absent modelled as `none`. -/
structure Endpoint where
  name : String := ""
  url : String := ""
  description : String := ""
  frequency : Int := 60000
  probes : Option (List Int) := none
  component : Bool := true
  metric : Bool := true
  thresholds : Option ThrOverride := none
deriving Repr, DecidableEq

/-- The `checks` list produced by `generate_checks_json`: name, job label,
url, description, and the per-check threshold override passed through
verbatim when present. -/
def generate_checks_json_checks (endpoints : List (String × Endpoint)) :
    List CheckDef :=
  endpoints.map (fun p =>
    { name := p.2.name
      job_label := p.1
      url := p.2.url
      description := p.2.description
      thresholds := p.2.thresholds })

/-- Modelled from the spec: the per-check effective thresholds the spec
describes — override values replace the corresponding global fields, and
unspecified fields fall back to the global defaults.  (The source never
computes this; it is stated here only to compare the spec's words with
`build_status_report`.) -/
def specEffectiveThresholds (global : Thresholds) (ov : Option ThrOverride) :
    Thresholds :=
  match ov with
  | none => global
  | some o =>
    { reachability_operational :=
        o.reachability.operational.getD global.reachability_operational
      reachability_degraded :=
        o.reachability.degraded.getD global.reachability_degraded
      latency_operational_ms :=
        o.latency_ms.operational.getD global.latency_operational_ms
      latency_degraded_ms :=
        o.latency_ms.degraded.getD global.latency_degraded_ms }

/-! ## atlassian_statuspage/incident_manager.py: pure helpers -/

/-- String-keyed dict `.get` with default, for the constant string maps. -/
def dictGetD (l : List (String × String)) (k dflt : String) : String :=
  (dictFind l k).getD dflt

/-- The `COMPONENT_STATUS_MAP` constant (identity on the three statuses). -/
def COMPONENT_STATUS_MAP : List (String × String) :=
  [("operational", "operational"),
   ("degraded_performance", "degraded_performance"),
   ("major_outage", "major_outage")]

/-- The `STATUS_TO_IMPACT` constant. -/
def STATUS_TO_IMPACT : List (String × String) :=
  [("degraded_performance", "minor"), ("major_outage", "critical")]

/-- The `STATUS_DISPLAY` constant. -/
def STATUS_DISPLAY : List (String × String) :=
  [("degraded_performance", "degraded performance"),
   ("major_outage", "a major outage")]

/-- One element of an incident's `incident_updates` list.  Fields are
`Option String` to mirror `dict.get`; `none` models a missing key. -/
structure IncidentUpdate where
  status : Option String := none
  body : Option String := none
  created_at : Option String := none
deriving Repr, DecidableEq

/-- A remote incident document as the Statuspage API returns it.  `id` is
modelled as a plain string (every incident the claims touch carries one);
`components` holds the affected component ids, as collected by
`find_open_incident_for_component` from `incident["components"][i]["id"]`. -/
structure Incident where
  id : String := ""
  name : Option String := none
  impact : Option String := none
  created_at : Option String := none
  components : List String := []
  incident_updates : List IncidentUpdate := []
deriving Repr, DecidableEq

/-- Embedding of `find_open_incident_for_component`: first unresolved
incident whose affected component ids contain `component_id`. -/
def find_open_incident_for_component (unresolved_incidents : List Incident)
    (component_id : String) : Option Incident :=
  unresolved_incidents.find? (fun inc => inc.components.contains component_id)

/-- Embedding of `generate_incident_name`. -/
def generate_incident_name (component_name status : String) : String :=
  component_name ++ " experiencing " ++ dictGetD STATUS_DISPLAY status "issues"

/-- Embedding of `generate_incident_body` (initial-creation narrative). -/
def generate_incident_body (component_name status : String) : String :=
  if status = "major_outage" then
    "We\x27re aware of a major outage affecting **" ++ component_name ++
    "**. Our team is actively investigating and working to restore service " ++
    "as quickly as possible."
  else if status = "degraded_performance" then
    "We\x27re investigating reports of degraded performance affecting **" ++
    component_name ++
    "**. Some users may experience slower response times " ++
    "or intermittent errors. We\x27ll provide updates as we learn more."
  else
    "We\x27re investigating an issue affecting **" ++ component_name ++
    "**. We\x27ll provide updates as we learn more."

/-- Embedding of `generate_update_body` (escalated / non-escalated update
narrative). -/
def generate_update_body (component_name status : String)
    (escalated : Bool := false) : String :=
  if escalated then
    "The situation affecting **" ++ component_name ++
    "** has escalated to a major " ++
    "service disruption. Our team is working urgently to restore normal operation."
  else if status = "major_outage" then
    "Our team continues to work on restoring **" ++ component_name ++
    "**. The service remains unavailable. We\x27ll provide another update shortly."
  else if status = "degraded_performance" then
    "We\x27ve identified the issue affecting **" ++ component_name ++
    "** and are working on a fix. The service continues to operate with reduced performance."
  else
    "We continue to monitor the issue affecting **" ++ component_name ++
    "**. Another update will follow shortly."

/-- Embedding of `generate_heartbeat_body`. -/
def generate_heartbeat_body (component_name status : String) : String :=
  if status = "major_outage" then
    "We continue to monitor the situation affecting **" ++ component_name ++
    "**. The service remains unavailable. Our team is actively working on a resolution."
  else if status = "degraded_performance" then
    "We continue to monitor the situation affecting **" ++ component_name ++
    "**. The service remains operating with reduced performance. " ++
    "Our team is actively working on a resolution."
  else
    "We continue to monitor the situation affecting **" ++ component_name ++
    "**. Our team is actively working on a resolution."

/-- Embedding of `generate_resolve_body`. -/
def generate_resolve_body (component_name : String) : String :=
  "This incident has been resolved. **" ++ component_name ++
  "** is back to normal operation. Thank you for your patience."

/-- Embedding of `get_last_update_time`.  `parseIso` models
`datetime.fromisoformat(s.replace("Z", "+00:00"))`, returning the parsed
timestamp in seconds, or `none` when parsing raises.  The source reads the
update at index 0 as the most recent one. -/
def get_last_update_time (parseIso : String → Option ℚ)
    (incident : Incident) : Option ℚ :=
  match incident.incident_updates with
  | [] => none
  | last_update :: _ =>
    let timestamp_str := last_update.created_at.getD ""
    if timestamp_str = "" then none else parseIso timestamp_str

/-- Python `"T" in s` membership test on the characters of a string. -/
def pyContainsChar (s : String) (c : Char) : Bool := s.data.contains c

/-- Timestamp rendering used by `generate_postmortem`: parse and reformat
via strftime when the raw value contains a "T" and parses, otherwise keep
the raw value.  `fmtIso` models the `fromisoformat` + `strftime` pipeline,
`none` meaning parsing raised. -/
def renderPostmortemTime (fmtIso : String → Option String)
    (raw : String) : String :=
  if pyContainsChar raw 'T' then (fmtIso raw).getD raw else raw

/-- One rendered timeline line of the postmortem:
`- **<time>** [<status>]: <body>`. -/
def postmortemTimelineLine (fmtIso : String → Option String)
    (update : IncidentUpdate) : String :=
  let update_status := update.status.getD "update"
  let update_body := update.body.getD ""
  let update_time := renderPostmortemTime fmtIso (update.created_at.getD "")
  "- **" ++ update_time ++ "** [" ++ update_status ++ "]: " ++ update_body

/-- The rendered timeline lines of the postmortem, in rendering order: the
source iterates `reversed(incident["incident_updates"])`. -/
def postmortemTimelineLines (fmtIso : String → Option String)
    (incident : Incident) : List String :=
  incident.incident_updates.reverse.map (postmortemTimelineLine fmtIso)

/-- Embedding of `generate_postmortem`: the full markdown document. -/
def generate_postmortem (fmtIso : String → Option String)
    (incident : Incident) (component_name resolve_time : String) : String :=
  let created0 := incident.created_at.getD "unknown"
  let created :=
    if pyContainsChar created0 'T' then (fmtIso created0).getD created0
    else created0
  let name := incident.name.getD "Incident"
  let impact := incident.impact.getD "unknown"
  let timeline_lines := postmortemTimelineLines fmtIso incident
  let timeline :=
    if timeline_lines.isEmpty then "- No detailed updates recorded."
    else String.intercalate "\n" timeline_lines
  "## Postmortem: " ++ name ++ "\n\n### Summary\n\n**Component:** " ++
  component_name ++ "\n**Impact:** " ++ impact ++ "\n**Started:** " ++
  created ++ "\n**Resolved:** " ++ resolve_time ++
  "\n\nThis incident was automatically detected by our monitoring system " ++
  "and resolved when services returned to normal operation.\n\n" ++
  "### Timeline\n\n" ++ timeline ++
  "\n\n### Root Cause\n\nThis incident was detected via automated " ++
  "monitoring. The root cause was identified as a service degradation " ++
  "that was automatically resolved. If further investigation is needed, " ++
  "a manual follow-up will be added.\n\n### Resolution\n\nThe service " ++
  "returned to normal operation and was automatically marked as resolved " ++
  "by our monitoring system.\n\n### Preventive Measures\n\n" ++
  "- Continuous automated monitoring remains active\n" ++
  "- Alerting thresholds are reviewed periodically\n" ++
  "- This postmortem was auto-generated and may be updated with " ++
  "additional details\n\n---\n*This postmortem was automatically " ++
  "generated by the status page monitoring system.*\n"

/-! ## atlassian_statuspage/incident_manager.py: process_incidents -/

/-- One entry of the persisted `component_mapping` dict
(`job_label -> {name, component_id, metric_id}`); `none` models a missing
key, matching the `.get` accesses in both consumers. -/
structure MapEntry where
  name : Option String := none
  component_id : Option String := none
  metric_id : Option String := none
deriving Repr, DecidableEq

/-- Entry appended to `result["created"]`. -/
structure CreatedEntry where
  component : String
  incident_id : String
  status : String
deriving Repr, DecidableEq

/-- Entry appended to `result["updated"]`. -/
structure UpdatedEntry where
  component : String
  incident_id : String
  status : String
  escalated : Bool
deriving Repr, DecidableEq

/-- Entry appended to `result["resolved"]`. -/
structure ResolvedEntry where
  component : String
  incident_id : String
deriving Repr, DecidableEq

/-- Entry appended to `result["suppressed"]`. -/
structure SuppressedEntry where
  component : String
  incident_id : String
deriving Repr, DecidableEq

/-- The result dict of `process_incidents`. -/
structure ProcessResult where
  created : List CreatedEntry := []
  updated : List UpdatedEntry := []
  resolved : List ResolvedEntry := []
  suppressed : List SuppressedEntry := []
  errors : List String := []
deriving Repr, DecidableEq

/-- Concatenation of two `process_incidents` result dicts, list by list. -/
def prAppend (a b : ProcessResult) : ProcessResult :=
  { created := a.created ++ b.created
    updated := a.updated ++ b.updated
    resolved := a.resolved ++ b.resolved
    suppressed := a.suppressed ++ b.suppressed
    errors := a.errors ++ b.errors }

/-- Outcome model of the `StatuspageClient` calls `process_incidents` makes.
Each field gives the remote outcome of one call, keyed by its distinguishing
argument; `Except.error` models the wrapper raising `StatuspageError`. -/
structure IncidentClient where
  list_unresolved : Except String (List Incident)
  create_incident : String → Except String Incident
  update_incident : String → Except String Unit
  resolve_incident : String → Except String Unit
  list_incidents : Except String (List Incident)
  create_postmortem : String → Except String Unit

/-- Remote requests actually issued by `process_incidents` (a request that
is never sent — e.g. because the interpreter raises before the wrapper
runs — does not appear). -/
inductive SpCall where
  | listUnresolved
  | createIncident (name status body : String) (component_ids : List String)
      (components : List (String × String)) (deliver_notifications : Bool)
      (impact_override : String)
  | updateIncident (incident_id status body : String)
      (components : List (String × String)) (deliver_notifications : Bool)
      (impact_override nm : String)
  | resolveIncident (incident_id body : String)
      (components : List (String × String)) (deliver_notifications : Bool)
  | listIncidents
  | createPostmortem (incident_id body : String) (notify_subscribers : Bool)
deriving Repr, DecidableEq

/-- The keyword parameters `StatuspageClient.update_incident` accepts
(client.py, its `def` line). -/
def update_incident_params : List String :=
  ["incident_id", "status", "body", "component_ids", "components",
   "deliver_notifications"]

/-- The keyword arguments the `client.update_incident(...)` call site in
`process_incidents` passes (incident_manager.py). -/
def process_update_call_kwargs : List String :=
  ["incident_id", "status", "body", "components", "deliver_notifications",
   "impact_override", "name"]

/-- The `client.update_incident(...)` call as issued by `process_incidents`:
Python raises `TypeError` before entering the method when a keyword argument
is not in the parameter list, so no request is sent in that case; otherwise
the request is issued and a remote failure surfaces as `StatuspageError`. -/
def callUpdateIncident (client : IncidentClient) (incident_id : String)
    (status body : String) (components : List (String × String))
    (deliver_notifications : Bool) (impact_override nm : String) :
    List SpCall × Except PyErr Unit :=
  if process_update_call_kwargs.all
      (fun k => update_incident_params.contains k) then
    ([SpCall.updateIncident incident_id status body components
        deliver_notifications impact_override nm],
      match client.update_incident incident_id with
      | Except.ok _ => Except.ok ()
      | Except.error e => Except.error (PyErr.statuspage e))
  else
    ([], Except.error (PyErr.typeError
      "update_incident() got an unexpected keyword argument"))

/-- Dict comprehension `{comp["name"]: comp for comp in components}` plus
lookup: later components win on duplicate names. -/
def lookupComponentData (components : List ReportComponent) (n : String) :
    Option ReportComponent :=
  (components.reverse).find? (fun c => c.name == n)

/-- The body of the `for job_label, mapping in component_mapping.items()`
loop of `process_incidents`, for one mapping entry.  Returns the requests
issued and either the entries this iteration appended to the result dict, or
the uncaught exception that aborts the whole run. -/
def incidentEntryStep (client : IncidentClient)
    (parseIso : String → Option ℚ) (fmtIso : String → Option String)
    (now : ℚ) (nowStr : String)
    (auto_postmortem notify_subscribers : Bool) (quiet_period_minutes : ℤ)
    (unresolved : List Incident) (report_components : List ReportComponent)
    (job_label : String) (m : MapEntry) :
    List SpCall × Except PyErr ProcessResult :=
  let component_id := m.component_id.getD ""
  let component_name := m.name.getD job_label
  if component_id = "" then ([], Except.ok {})
  else
    match lookupComponentData report_components component_name with
    | none => ([], Except.ok {})
    | some comp_data =>
      let current_status := dictGetD COMPONENT_STATUS_MAP comp_data.status
        "major_outage"
      let is_healthy := current_status == "operational"
      let open_incident :=
        find_open_incident_for_component unresolved component_id
      match open_incident, is_healthy with
      | none, false =>
        let incident_name := generate_incident_name component_name
          current_status
        let incident_body := generate_incident_body component_name
          current_status
        let impact := dictGetD STATUS_TO_IMPACT current_status "minor"
        ([SpCall.createIncident incident_name "investigating" incident_body
            [component_id] [(component_id, current_status)]
            notify_subscribers impact],
          match client.create_incident incident_name with
          | Except.ok new_incident =>
            Except.ok { created := [{ component := component_name,
                                      incident_id := new_incident.id,
                                      status := current_status }] }
          | Except.error e =>
            Except.ok { errors :=
              ["Create incident for " ++ component_name ++ ": " ++ e] })
      | some inc, false =>
        let incident_id := inc.id
        let new_impact := dictGetD STATUS_TO_IMPACT current_status "minor"
        let old_impact := inc.impact.getD "minor"
        let impact_escalated := new_impact != old_impact
        let suppress : Bool :=
          if !impact_escalated && decide (quiet_period_minutes > 0) then
            match get_last_update_time parseIso inc with
            | some last_update_time =>
              decide ((now - last_update_time) / 60 < (quiet_period_minutes : ℚ))
            | none => false
          else false
        if suppress then
          ([], Except.ok { suppressed := [{ component := component_name,
                                            incident_id := incident_id }] })
        else
          let update_body :=
            if impact_escalated then
              generate_update_body component_name current_status true
            else generate_heartbeat_body component_name current_status
          let new_name := generate_incident_name component_name current_status
          let (calls, outcome) := callUpdateIncident client incident_id
            "identified" update_body [(component_id, current_status)]
            (impact_escalated && notify_subscribers) new_impact new_name
          (calls,
            match outcome with
            | Except.ok _ =>
              Except.ok { updated := [{ component := component_name,
                                        incident_id := incident_id,
                                        status := current_status,
                                        escalated := impact_escalated }] }
            | Except.error (PyErr.statuspage e) =>
              Except.ok { errors :=
                ["Update incident " ++ incident_id ++ ": " ++ e] }
            | Except.error e => Except.error e)
      | some inc, true =>
        let incident_id := inc.id
        let resolve_body := generate_resolve_body component_name
        let resolve_time := nowStr
        let resolveCall := SpCall.resolveIncident incident_id resolve_body
          [(component_id, "operational")] notify_subscribers
        (match client.resolve_incident incident_id with
         | Except.error e =>
           ([resolveCall], Except.ok { errors :=
             ["Resolve incident " ++ incident_id ++ ": " ++ e] })
         | Except.ok _ =>
           let resolvedPart : ProcessResult :=
             { resolved := [{ component := component_name,
                              incident_id := incident_id }] }
           if auto_postmortem then
             match client.list_incidents with
             | Except.error e =>
               ([resolveCall, SpCall.listIncidents],
                 Except.ok (prAppend resolvedPart { errors :=
                   ["Postmortem for incident " ++ incident_id ++ ": " ++ e] }))
             | Except.ok incidents =>
               let full_incident :=
                 (incidents.find? (fun i => i.id == incident_id)).getD inc
               let postmortem_body := generate_postmortem fmtIso
                 full_incident component_name resolve_time
               ([resolveCall, SpCall.listIncidents,
                  SpCall.createPostmortem incident_id postmortem_body
                    notify_subscribers],
                 match client.create_postmortem incident_id with
                 | Except.ok _ => Except.ok resolvedPart
                 | Except.error e =>
                   Except.ok (prAppend resolvedPart { errors :=
                     ["Postmortem for incident " ++ incident_id ++ ": " ++
                      e] }))
           else ([resolveCall], Except.ok resolvedPart))
      | none, true => ([], Except.ok {})

/-- The `process_incidents` component loop over the mapping entries: each
iteration's appends accumulate, an uncaught exception aborts the loop. -/
def incidentLoop (client : IncidentClient) (parseIso : String → Option ℚ)
    (fmtIso : String → Option String) (now : ℚ) (nowStr : String)
    (auto_postmortem notify_subscribers : Bool) (quiet_period_minutes : ℤ)
    (unresolved : List Incident) (report_components : List ReportComponent) :
    List (String × MapEntry) → List SpCall × Except PyErr ProcessResult
  | [] => ([], Except.ok {})
  | (job_label, m) :: rest =>
    let (calls, r) := incidentEntryStep client parseIso fmtIso now nowStr
      auto_postmortem notify_subscribers quiet_period_minutes unresolved
      report_components job_label m
    match r with
    | Except.error e => (calls, Except.error e)
    | Except.ok delta =>
      let (calls2, r2) := incidentLoop client parseIso fmtIso now nowStr
        auto_postmortem notify_subscribers quiet_period_minutes unresolved
        report_components rest
      (calls ++ calls2,
        match r2 with
        | Except.ok acc => Except.ok (prAppend delta acc)
        | Except.error e => Except.error e)

/-- Embedding of `process_incidents`.  The returned pair is the list of
remote requests issued and either the result dict or the uncaught exception
with which the Python function would have crossed its boundary. -/
def process_incidents (client : IncidentClient)
    (parseIso : String → Option ℚ) (fmtIso : String → Option String)
    (now : ℚ) (nowStr : String)
    (component_mapping : List (String × MapEntry))
    (report_components : List ReportComponent)
    (auto_incidents : Bool := true) (auto_postmortem : Bool := true)
    (notify_subscribers : Bool := true) (quiet_period_minutes : ℤ := 60) :
    List SpCall × Except PyErr ProcessResult :=
  if ¬ auto_incidents then ([], Except.ok {})
  else
    match client.list_unresolved with
    | Except.error e =>
      ([SpCall.listUnresolved], Except.ok { errors :=
        ["Failed to fetch unresolved incidents: " ++ e] })
    | Except.ok unresolved =>
      let (calls, r) := incidentLoop client parseIso fmtIso now nowStr
        auto_postmortem notify_subscribers quiet_period_minutes unresolved
        report_components component_mapping
      (SpCall.listUnresolved :: calls, r)

/-- Number of incident-update requests in a trace. -/
def countUpdateCalls (trace : List SpCall) : Nat :=
  (trace.filter (fun c => match c with
    | SpCall.updateIncident _ _ _ _ _ _ _ => true
    | _ => false)).length

/-! ## reconcile.py: reconcile_grafana

The remote Synthetic-Monitoring inventory is modelled as a state: a
successful create/update stores exactly the fields sent (the no-external-
drift assumption of the spec), a successful delete removes the check.  Per
call outcomes are parameters of the client model; an `Except.error` outcome
models the wrapper raising `GrafanaClientError`. -/

/-- A remote Grafana synthetic-monitoring check. -/
structure GCheck where
  id : Nat
  job : String := ""
  target : String := ""
  frequency : Int := 0
  probes : List Int := []
deriving Repr, DecidableEq

/-- Remote Grafana inventory: the checks, a fresh-id counter, and the
default probe ids that `create_check`/`update_check` resolve via
`get_default_probe_ids()` when called with `probe_ids=None`. -/
structure GState where
  checks : List GCheck := []
  nextId : Nat := 0
  defaultProbes : List Int := []
deriving Repr, DecidableEq

/-- Per-call outcomes of the Grafana client: `none` means the call
succeeds, `some msg` means the wrapper raises `GrafanaClientError msg`. -/
structure GClient where
  listErr : Option String := none
  createErr : String → Option String := fun _ => none
  updateErr : String → Option String := fun _ => none
  deleteErr : Nat → Option String := fun _ => none

/-- The result dict of `reconcile_grafana`. -/
structure GResult where
  created : List String := []
  updated : List String := []
  deleted : List String := []
  errors : List String := []
deriving Repr, DecidableEq

/-- Fieldwise concatenation of two `reconcile_grafana` results. -/
def gResConcat (a b : GResult) : GResult :=
  { created := a.created ++ b.created
    updated := a.updated ++ b.updated
    deleted := a.deleted ++ b.deleted
    errors := a.errors ++ b.errors }

/-- Remote requests issued by `reconcile_grafana`. -/
inductive GAction where
  | listChecks
  | createCheck (job target : String) (frequency : Int) (probes : List Int)
  | updateCheck (id : Nat) (job target : String) (frequency : Int)
      (probes : List Int)
  | deleteCheck (id : Nat)
deriving Repr, DecidableEq

/-- The `existing_by_job` dict: `{check.get("job", ""): check}` in listing
order, later entries overwriting earlier ones. -/
def buildJobDict (checks : List GCheck) : List (String × GCheck) :=
  checks.foldl (fun d c => dictInsert d c.job c) []

/-- Insertion into a sorted list of ints (helper for `sortInts`). -/
def insertSortedInt (x : Int) : List Int → List Int
  | [] => [x]
  | y :: ys => if x ≤ y then x :: y :: ys else y :: insertSortedInt x ys

/-- Python `sorted` on a list of ints. -/
def sortInts (l : List Int) : List Int := l.foldr insertSortedInt []

/-- The in-place field update a successful `update_check` performs on the
remote check with the given id. -/
def gPatch (i : Nat) (job target : String) (frequency : Int)
    (probes : List Int) (c : GCheck) : GCheck :=
  if c.id = i then
    { c with job := job, target := target, frequency := frequency,
             probes := probes }
  else c

/-- Map a function over the result part of a `reconcile_grafana` loop
outcome, leaving an uncaught exception unchanged. -/
def gOnOk (f : GResult → GResult) :
    Except PyErr (GResult × GState) → Except PyErr (GResult × GState)
  | Except.ok (res, st) => Except.ok (f res, st)
  | Except.error e => Except.error e

/-- Prepend one issued request and record its result-list entry on top of
the outcome of the remaining loop iterations. -/
def gCons (a : GAction) (f : GResult → GResult)
    (p : List GAction × Except PyErr (GResult × GState)) :
    List GAction × Except PyErr (GResult × GState) :=
  (a :: p.1, gOnOk f p.2)

/-- The `needs_update` expression of the desired-jobs loop of
`reconcile_grafana`, evaluated with Python's short-circuiting `or`:
when target and frequency both match and the endpoint has no `probes`
key, `sorted(None)` raises `TypeError`, which nothing in
`reconcile_grafana` catches. -/
def gNeedsUpdate (existing : GCheck) (e : Endpoint) : Except PyErr Bool :=
  if existing.target != e.url || existing.frequency != e.frequency
  then Except.ok true  -- `or` short-circuits, sorted(...) unevaluated
  else
    match e.probes with
    | none => Except.error (PyErr.typeError
        "sorted() argument of type NoneType is not iterable")
    | some ps =>
      Except.ok (sortInts existing.probes != sortInts ps)

/-- The `for job_label in desired_jobs` loop of `reconcile_grafana`.
`existing_by_job` is the dict built from the single listing at the start of
the pass (never refreshed). -/
def gProcess (cli : GClient) (existing_by_job : List (String × GCheck)) :
    List (String × Endpoint) → GState →
    List GAction × Except PyErr (GResult × GState)
  | [], st => ([], Except.ok ({}, st))
  | (job_label, e) :: rest, st =>
    if e.url = "" then gProcess cli existing_by_job rest st
    else
      match dictFind existing_by_job job_label with
      | some existing =>
        match gNeedsUpdate existing e with
        | Except.error exc => ([], Except.error exc)
        | Except.ok false => gProcess cli existing_by_job rest st
        | Except.ok true =>
          let probes_sent := e.probes.getD st.defaultProbes
          let act := GAction.updateCheck existing.id job_label e.url
            e.frequency probes_sent
          match cli.updateErr job_label with
          | none =>
            let st' :=
              { st with
                checks := st.checks.map (gPatch existing.id job_label
                  e.url e.frequency probes_sent) }
            gCons act (fun res =>
              { res with updated := job_label :: res.updated })
              (gProcess cli existing_by_job rest st')
          | some err =>
            gCons act (fun res =>
              { res with errors :=
                  ("Update " ++ job_label ++ ": " ++ err) :: res.errors })
              (gProcess cli existing_by_job rest st)
      | none =>
        let probes_sent := e.probes.getD st.defaultProbes
        let act := GAction.createCheck job_label e.url e.frequency probes_sent
        match cli.createErr job_label with
        | none =>
          let st' :=
            { st with
              checks := st.checks ++ [{ id := st.nextId, job := job_label,
                                        target := e.url,
                                        frequency := e.frequency,
                                        probes := probes_sent }]
              nextId := st.nextId + 1 }
          gCons act (fun res =>
            { res with created := job_label :: res.created })
            (gProcess cli existing_by_job rest st')
        | some err =>
          gCons act (fun res =>
            { res with errors :=
                ("Create " ++ job_label ++ ": " ++ err) :: res.errors })
            (gProcess cli existing_by_job rest st)

/-- The orphan-deletion loop of `reconcile_grafana`.  Orphans are the
listed checks whose job is not a desired key; without `ALLOW_DELETIONS`
each is skipped (logged only). -/
def gOrphanLoop (cli : GClient) (allow_deletions : Bool)
    (desired : List String) :
    List (String × GCheck) → GState → List GAction × GResult × GState
  | [], st => ([], {}, st)
  | (job_label, check) :: rest, st =>
    if desired.contains job_label then
      gOrphanLoop cli allow_deletions desired rest st
    else if ¬ allow_deletions then
      gOrphanLoop cli allow_deletions desired rest st
    else
      match cli.deleteErr check.id with
      | none =>
        let st' :=
          { st with checks := st.checks.filter (fun c => c.id ≠ check.id) }
        let (t, r, st'') := gOrphanLoop cli allow_deletions desired rest st'
        (GAction.deleteCheck check.id :: t,
          { r with deleted := job_label :: r.deleted }, st'')
      | some err =>
        let (t, r, st'') := gOrphanLoop cli allow_deletions desired rest st
        (GAction.deleteCheck check.id :: t,
          { r with errors :=
              ("Delete " ++ job_label ++ ": " ++ err) :: r.errors }, st'')

/-- Embedding of `reconcile_grafana`.  `allow_deletions` is the
`ALLOW_DELETIONS` environment gate; the pair returned is the issued
requests and either the result dict with the final remote state, or the
uncaught exception crossing the function boundary. -/
def reconcile_grafana (cli : GClient) (allow_deletions : Bool)
    (endpoints : List (String × Endpoint)) (st : GState) :
    List GAction × Except PyErr (GResult × GState) :=
  match cli.listErr with
  | some e =>
    ([GAction.listChecks],
      Except.ok ({ errors := ["List checks: " ++ e] }, st))
  | none =>
    let existing_by_job := buildJobDict st.checks
    let (t1, r1) := gProcess cli existing_by_job endpoints st
    match r1 with
    | Except.error e => (GAction.listChecks :: t1, Except.error e)
    | Except.ok (res1, st1) =>
      let (t2, res2, st2) := gOrphanLoop cli allow_deletions
        (endpoints.map Prod.fst) existing_by_job st1
      (GAction.listChecks :: (t1 ++ t2),
        Except.ok (gResConcat res1 res2, st2))

/-! ## reconcile.py: reconcile_statuspage -/

/-- A remote Statuspage component (the fields reconciliation reads). -/
structure SpComp where
  id : String
  name : String
deriving Repr, DecidableEq

/-- A remote Statuspage metric (the fields reconciliation reads). -/
structure SpMetric where
  id : String
  name : String
deriving Repr, DecidableEq

/-- Remote Statuspage inventory plus a fresh-id counter for objects created
during a pass. -/
structure SpState where
  components : List SpComp := []
  metrics : List SpMetric := []
  nextId : Nat := 0
deriving Repr, DecidableEq

/-- Fresh id the model assigns to the component created at counter `n`. -/
def freshCompId (n : Nat) : String := "generated-c" ++ toString n

/-- Fresh id the model assigns to the metric created at counter `n`. -/
def freshMetricId (n : Nat) : String := "generated-m" ++ toString n

/-- Per-call outcomes of the Statuspage client during reconciliation:
`none` means the call succeeds, `some msg` that the wrapper raises
`StatuspageError msg`. -/
structure SpRecClient where
  listComponentsErr : Option String := none
  listMetricsErr : Option String := none
  createComponentErr : String → Option String := fun _ => none
  createMetricErr : String → Option String := fun _ => none
  deleteComponentErr : String → Option String := fun _ => none
  deleteMetricErr : String → Option String := fun _ => none

/-- The result dict of `reconcile_statuspage`. -/
structure SpRecResult where
  created : List String := []
  updated : List String := []
  deleted : List String := []
  errors : List String := []
  warnings : List String := []
deriving Repr, DecidableEq

/-- Fieldwise concatenation of two `reconcile_statuspage` results. -/
def spResConcat (a b : SpRecResult) : SpRecResult :=
  { created := a.created ++ b.created
    updated := a.updated ++ b.updated
    deleted := a.deleted ++ b.deleted
    errors := a.errors ++ b.errors
    warnings := a.warnings ++ b.warnings }

/-- Remote requests issued by `reconcile_statuspage`. -/
inductive SpRecAction where
  | listComponents
  | listMetrics
  | createComponent (name description : String)
  | createMetric (name : String)
  | deleteComponent (id : String)
  | deleteMetric (id : String)
deriving Repr, DecidableEq

/-- The `{c["name"]: c}` dict over listed components (later wins). -/
def buildCompNameDict (cs : List SpComp) : List (String × SpComp) :=
  cs.foldl (fun d c => dictInsert d c.name c) []

/-- The `{m["name"]: m}` dict over listed metrics (later wins). -/
def buildMetricNameDict (ms : List SpMetric) : List (String × SpMetric) :=
  ms.foldl (fun d m => dictInsert d m.name m) []

/-- Validation of a stored remote id against the fresh inventory: a
non-empty id that no longer exists is discarded (`comp_id = ""`),
self-healing against drift. -/
def spValidatedId (stored : String) (ids : List String) : String :=
  if stored != "" && !(ids.contains stored) then "" else stored

/-- The `metric_id` value written into the mapping entry:
`metric_id if wants_metric else ""`. -/
def storedMetricId (wants_metric : Bool) (metric_id : String) : String :=
  if wants_metric then metric_id else ""

/-- The metric half of one desired-loop iteration of `reconcile_statuspage`
(adopt by name / create / leave as warning) followed by the write of the
job's mapping entry.  `comp_id` is the component id the component half
resolved. -/
def spMetricPart (cli : SpRecClient)
    (metric_by_name : List (String × SpMetric)) (job_label name : String)
    (wants_metric : Bool) (metric_id : String) (comp_id : String)
    (st : SpState) (mapping : List (String × MapEntry)) :
    List SpRecAction × SpRecResult × SpState × List (String × MapEntry) :=
  let metric_name := name ++ " Latency"
  let writeEntry := fun (mid : String) =>
    dictInsert mapping job_label
      { name := some name, component_id := some comp_id,
        metric_id := some (storedMetricId wants_metric mid) }
  if wants_metric && metric_id == "" then
    match dictFind metric_by_name metric_name with
    | some mt => ([], {}, st, writeEntry mt.id)
    | none =>
      match cli.createMetricErr metric_name with
      | none =>
        let mid := freshMetricId st.nextId
        let st' :=
          { st with metrics := st.metrics ++ [{ id := mid,
                                                name := metric_name }]
                    nextId := st.nextId + 1 }
        ([SpRecAction.createMetric metric_name],
          { created := ["metric:" ++ metric_name] }, st',
          writeEntry mid)
      | some err =>
        ([SpRecAction.createMetric metric_name],
          { warnings := ["Create metric " ++ metric_name ++ ": " ++ err] },
          st, writeEntry "")
  else ([], {}, st, writeEntry metric_id)

/-- Prepend one issued request and its result entries on top of the rest
of a `reconcile_statuspage` job step. -/
def spJobCons (a : SpRecAction) (r0 : SpRecResult)
    (q : List SpRecAction × SpRecResult × SpState ×
      List (String × MapEntry)) :
    List SpRecAction × SpRecResult × SpState × List (String × MapEntry) :=
  (a :: q.1, spResConcat r0 q.2.1, q.2.2.1, q.2.2.2)

/-- One iteration of the desired-jobs loop of `reconcile_statuspage`:
validate stored ids against the fresh inventory snapshots, adopt by name or
create the component (a create failure records an error and `continue`s
without touching the job's mapping entry), then handle the metric and write
the mapping entry. -/
def spJobStep (cli : SpRecClient) (comp_by_name : List (String × SpComp))
    (comp_ids : List String) (metric_by_name : List (String × SpMetric))
    (metric_ids : List String) (job_label : String) (e : Endpoint)
    (st : SpState) (mapping : List (String × MapEntry)) :
    List SpRecAction × SpRecResult × SpState × List (String × MapEntry) :=
  let name := e.name
  let description := e.description
  let wants_metric := e.metric
  let current := (dictFind mapping job_label).getD {}
  let comp_id0 := current.component_id.getD ""
  let metric_id0 := current.metric_id.getD ""
  let comp_id := spValidatedId comp_id0 comp_ids
  let metric_id := spValidatedId metric_id0 metric_ids
  if comp_id == "" then
    match dictFind comp_by_name name with
    | some c =>
      spMetricPart cli metric_by_name job_label name wants_metric metric_id
        c.id st mapping
    | none =>
      match cli.createComponentErr name with
      | none =>
        let cid := freshCompId st.nextId
        let st' :=
          { st with components := st.components ++ [{ id := cid,
                                                      name := name }]
                    nextId := st.nextId + 1 }
        spJobCons (SpRecAction.createComponent name description)
          { created := ["component:" ++ name] }
          (spMetricPart cli metric_by_name job_label name wants_metric
            metric_id cid st' mapping)
      | some err =>
        ([SpRecAction.createComponent name description],
          { errors := ["Create component " ++ name ++ ": " ++ err] },
          st, mapping)
  else
    spMetricPart cli metric_by_name job_label name wants_metric metric_id
      comp_id st mapping

/-- The desired-jobs loop of `reconcile_statuspage` over the endpoints with
the `component` flag set, threading state and mapping. -/
def spDesiredLoop (cli : SpRecClient)
    (comp_by_name : List (String × SpComp)) (comp_ids : List String)
    (metric_by_name : List (String × SpMetric)) (metric_ids : List String) :
    List (String × Endpoint) → SpState → List (String × MapEntry) →
    List SpRecAction × SpRecResult × SpState × List (String × MapEntry)
  | [], st, mapping => ([], {}, st, mapping)
  | (job_label, e) :: rest, st, mapping =>
    let (t1, r1, st1, m1) := spJobStep cli comp_by_name comp_ids
      metric_by_name metric_ids job_label e st mapping
    let (t2, r2, st2, m2) := spDesiredLoop cli comp_by_name comp_ids
      metric_by_name metric_ids rest st1 m1
    (t1 ++ t2, spResConcat r1 r2, st2, m2)

/-- The orphan loop of `reconcile_statuspage`: iterate the mapping keys not
in the desired set; without the deletion gate every orphan is skipped.
With it, the orphan's metric is deleted first (a failure here is only
logged), then the component (a failure records an error and leaves the
mapping entry in place); only then the entry is removed from the mapping. -/
def spOrphanLoop (cli : SpRecClient) (allow_deletions : Bool)
    (desired : List String) :
    List (String × MapEntry) → SpState → List (String × MapEntry) →
    List SpRecAction × SpRecResult × SpState × List (String × MapEntry)
  | [], st, mapping => ([], {}, st, mapping)
  | (job_label, entry0) :: rest, st, mapping =>
    if desired.contains job_label then
      spOrphanLoop cli allow_deletions desired rest st mapping
    else
      let entry := (dictFind mapping job_label).getD entry0
      let name := entry.name.getD job_label
      if ¬ allow_deletions then
        spOrphanLoop cli allow_deletions desired rest st mapping
      else
        let metric_id := entry.metric_id.getD ""
        let (tDel, rDel, stDel) :=
          if metric_id != "" then
            match cli.deleteMetricErr metric_id with
            | none =>
              ([SpRecAction.deleteMetric metric_id],
                ({ deleted := ["metric:" ++ name] } : SpRecResult),
                { st with metrics :=
                    st.metrics.filter (fun m => m.id ≠ metric_id) })
            | some _err =>
              -- failure only logged (logger.warning), nothing recorded
              ([SpRecAction.deleteMetric metric_id], {}, st)
          else ([], {}, st)
        let comp_id := entry.component_id.getD ""
        if comp_id != "" then
          match cli.deleteComponentErr comp_id with
          | none =>
            let st' :=
              { stDel with components :=
                  stDel.components.filter (fun c => c.id ≠ comp_id) }
            let (t, r, st'', m') := spOrphanLoop cli allow_deletions desired
              rest st' (dictRemove mapping job_label)
            (tDel ++ SpRecAction.deleteComponent comp_id :: t,
              spResConcat rDel (spResConcat
                { deleted := ["component:" ++ name] } r), st'', m')
          | some err =>
            -- `continue`: the mapping entry stays in place
            let (t, r, st'', m') := spOrphanLoop cli allow_deletions desired
              rest stDel mapping
            (tDel ++ SpRecAction.deleteComponent comp_id :: t,
              spResConcat rDel (spResConcat
                { errors := ["Delete component " ++ name ++ ": " ++ err] }
                r), st'', m')
        else
          let (t, r, st'', m') := spOrphanLoop cli allow_deletions desired
            rest stDel (dictRemove mapping job_label)
          (tDel ++ t, spResConcat rDel r, st'', m')

/-- Embedding of `reconcile_statuspage`: returns the issued requests, the
result dict, the final remote state and the regenerated mapping. -/
def reconcile_statuspage (cli : SpRecClient) (allow_deletions : Bool)
    (endpoints : List (String × Endpoint)) (st : SpState)
    (existing_mapping : List (String × MapEntry)) :
    List SpRecAction × SpRecResult × SpState × List (String × MapEntry) :=
  match cli.listComponentsErr with
  | some e =>
    ([SpRecAction.listComponents],
      { errors := ["List components: " ++ e] }, st, existing_mapping)
  | none =>
    let comp_by_name := buildCompNameDict st.components
    let comp_ids := st.components.map SpComp.id
    let (metricWarnings, existing_metrics) :=
      match cli.listMetricsErr with
      | some e => (["List metrics: " ++ e], ([] : List SpMetric))
      | none => ([], st.metrics)
    let metric_by_name := buildMetricNameDict existing_metrics
    let metric_ids := existing_metrics.map SpMetric.id
    let desiredEntries := endpoints.filter (fun p => p.2.component)
    let desired := desiredEntries.map Prod.fst
    let (t1, r1, st1, m1) := spDesiredLoop cli comp_by_name comp_ids
      metric_by_name metric_ids desiredEntries st existing_mapping
    let (t2, r2, st2, m2) := spOrphanLoop cli allow_deletions desired m1
      st1 m1
    (SpRecAction.listComponents :: SpRecAction.listMetrics :: (t1 ++ t2),
      spResConcat { warnings := metricWarnings } (spResConcat r1 r2),
      st2, m2)
/-! ## Shared lemmas about the dict model -/

theorem dictFind_nil {α : Type} (k : String) :
    dictFind ([] : List (String × α)) k = none := rfl

theorem dictFind_append_some {α : Type} (l₁ l₂ : List (String × α))
    (k : String) (v : α) (h : dictFind l₂ k = some v) :
    dictFind (l₁ ++ l₂) k = some v := by
  induction l₁ with
  | nil => simpa using h
  | cons p rest ih => simp [dictFind, ih]

theorem dictFind_append_none {α : Type} (l₁ l₂ : List (String × α))
    (k : String) (h : dictFind l₂ k = none) :
    dictFind (l₁ ++ l₂) k = dictFind l₁ k := by
  induction l₁ with
  | nil => simpa using h
  | cons p rest ih => simp [dictFind, ih]

theorem dictFind_overwrite_none {α : Type} (k : String) (v : α)
    (l : List (String × α)) (h : ¬ l.any (fun p => p.1 == k)) :
    dictFind (l.map (fun p => if p.1 == k then (k, v) else p)) k = none := by
  induction l with
  | nil => rfl
  | cons p rest ih =>
    simp only [List.any_cons, Bool.or_eq_true, not_or] at h
    simp only [List.map_cons, dictFind, ih h.2]
    have hp : ¬ p.1 == k := by simpa using h.1
    simp [hp]

theorem dictFind_overwrite_self {α : Type} (k : String) (v : α)
    (l : List (String × α)) (h : l.any (fun p => p.1 == k)) :
    dictFind (l.map (fun p => if p.1 == k then (k, v) else p)) k = some v := by
  induction l with
  | nil => simp at h
  | cons p rest ih =>
    simp only [List.map_cons, dictFind]
    by_cases hrest : rest.any (fun p => p.1 == k)
    · rw [ih hrest]
    · rw [dictFind_overwrite_none k v rest hrest]
      have hp : p.1 == k := by
        simp only [List.any_cons, Bool.or_eq_true] at h
        rcases h with h | h
        · exact h
        · exact absurd h hrest
      simp [hp]

theorem dictFind_insert_self {α : Type} (l : List (String × α)) (k : String)
    (v : α) : dictFind (dictInsert l k v) k = some v := by
  unfold dictInsert
  by_cases hany : l.any (fun p => p.1 == k)
  · simp only [hany, if_true]
    exact dictFind_overwrite_self k v l hany
  · simp only [hany, if_false]
    exact dictFind_append_some l [(k, v)] k v (by simp [dictFind])

theorem dictFind_overwrite_ne {α : Type} (k j : String) (v : α)
    (l : List (String × α)) (h : j ≠ k) :
    dictFind (l.map (fun p => if p.1 == k then (k, v) else p)) j =
      dictFind l j := by
  induction l with
  | nil => rfl
  | cons p rest ih =>
    simp only [List.map_cons, dictFind, ih]
    by_cases hp : p.1 == k
    · have hpk : p.1 = k := by simpa using hp
      have h1 : ¬ (k == j) := by simpa using (Ne.symm h)
      have h2 : ¬ (p.1 == j) := by
        simp only [beq_iff_eq, hpk]
        exact Ne.symm h
      simp [hp, h1, h2]
    · simp [hp]

theorem dictFind_insert_ne {α : Type} (l : List (String × α)) (k j : String)
    (v : α) (h : j ≠ k) :
    dictFind (dictInsert l k v) j = dictFind l j := by
  unfold dictInsert
  by_cases hany : l.any (fun p => p.1 == k)
  · simp only [hany, if_true]
    exact dictFind_overwrite_ne k j v l h
  · simp only [hany, if_false]
    refine dictFind_append_none l [(k, v)] j ?_
    have : ¬ (k == j) := by simpa using (Ne.symm h)
    simp [dictFind, this]
/-! ## C9: monotonicity of the classifier -/

/-- C9: for every thresholds value and non-absent metrics,
`determine_component_status` is monotone: raising reachability with latency
fixed, or lowering latency with reachability fixed, never yields a strictly
worse status under the severity order `major_outage > degraded_performance
> operational`. -/
theorem C9_classify_monotone (t : Thresholds) (r r' l l' : ℚ)
    (hr : r ≤ r') (hl : l' ≤ l) :
    severityRank (determine_component_status (some r') (some l) t) ≤
      severityRank (determine_component_status (some r) (some l) t) ∧
    severityRank (determine_component_status (some r) (some l') t) ≤
      severityRank (determine_component_status (some r) (some l) t) := by
  constructor <;>
  · unfold determine_component_status
    dsimp only
    split_ifs <;> first | decide | (exfalso; linarith)

theorem C9_classify_monotone_witness :
    severityRank (determine_component_status (some 99) (some 100) {}) ≤
      severityRank (determine_component_status (some 80) (some 100) {}) ∧
    severityRank (determine_component_status (some 80) (some 90) {}) ≤
      severityRank (determine_component_status (some 80) (some 100) {}) :=
  C9_classify_monotone {} 80 99 100 90 (by norm_num) (by norm_num)
/-! ## C2: per-check threshold overrides and build_status_report -/

/-- C2 (amended): `build_status_report` classifies every check against the
single global thresholds value; the per-check `thresholds` override carried
in the check entry never affects the classification. -/
theorem C2_classification_uses_global_thresholds (checks : List CheckDef)
    (metrics : String → Option ℚ × Option ℚ) (thr : Thresholds)
    (now : String) :
    (build_status_report checks metrics thr now).components.map
        ReportComponent.status =
      checks.map (fun c =>
        determine_component_status (metrics c.job_label).1
          (metrics c.job_label).2 thr) := by
  simp [build_status_report, List.map_map, Function.comp]

/-- C2 counterexample: a check whose override would classify it
`operational` is still classified `degraded_performance` by
`build_status_report`, which reads only the global thresholds — the
override values are not used. -/
theorem C2_counterexample :
    (build_status_report
        (generate_checks_json_checks
          [("web", { name := "Web", url := "https://example.com",
                     thresholds := some { latency_ms :=
                       { operational := some 2000,
                         degraded := some 3000 } } })])
        (fun _ => (some 99, some 500)) {} "t").components.map
        ReportComponent.status = ["degraded_performance"] ∧
    determine_component_status (some 99) (some 500)
      (specEffectiveThresholds {}
        (some { latency_ms := { operational := some 2000,
                                degraded := some 3000 } })) =
      "operational" ∧
    "degraded_performance" ≠ "operational" := by
  refine ⟨?_, ?_, by decide⟩ <;> rfl
/-! ## C3: postmortem timeline order -/

/-- C3 (amended): for every incident whose `incident_updates` are stored
newest-first (the order `get_last_update_time` assumes), the Timeline of
`generate_postmortem` renders every stored update exactly once — it is the
reverse of the stored list — in chronological, oldest-first order, each
line rendering the timestamp human-readably and falling back to the raw
string when parsing fails. -/
theorem C3_timeline_chronological (fmtIso : String → Option String)
    (pt : IncidentUpdate → ℚ) (inc : Incident)
    (h : inc.incident_updates.Pairwise (fun a b => pt b ≤ pt a)) :
    postmortemTimelineLines fmtIso inc =
      inc.incident_updates.reverse.map (postmortemTimelineLine fmtIso) ∧
    inc.incident_updates.reverse.Pairwise (fun a b => pt a ≤ pt b) ∧
    ∀ u, postmortemTimelineLine fmtIso u =
      "- **" ++ renderPostmortemTime fmtIso (u.created_at.getD "") ++
        "** [" ++ u.status.getD "update" ++ "]: " ++ u.body.getD "" := by
  refine ⟨rfl, ?_, fun u => rfl⟩
  exact List.pairwise_reverse.mpr h

/-- Concrete newest-first incident used to settle C3: the update at index 0
is the most recent one. -/
def c3Incident : Incident :=
  { id := "inc1", name := some "API experiencing a major outage",
    impact := some "critical", created_at := some "2024-01-01T00:00:00Z",
    components := ["c1"],
    incident_updates :=
      [{ status := some "identified", body := some "second update",
         created_at := some "2024-01-02T00:00:00Z" },
       { status := some "investigating", body := some "first update",
         created_at := some "2024-01-01T00:00:00Z" }] }

/-- Parsed timestamp (in days, say) of the two update timestamps of
`c3Incident`. -/
def c3ParsedTime (u : IncidentUpdate) : ℚ :=
  if u.created_at.getD "" = "2024-01-02T00:00:00Z" then 2 else 1

/-- C3 counterexample: `c3Incident` stores its updates newest-first, yet
the rendered timeline is not the stored (newest-first) order — the source
iterates `reversed(updates)`, so the timeline comes out oldest-first. -/
theorem C3_counterexample :
    c3Incident.incident_updates.Pairwise
      (fun a b => c3ParsedTime b ≤ c3ParsedTime a) ∧
    postmortemTimelineLines (fun _ => none) c3Incident ≠
      c3Incident.incident_updates.map (postmortemTimelineLine
        (fun _ => none)) := by
  constructor
  · decide
  · decide

theorem C3_timeline_chronological_witness :
    (postmortemTimelineLines (fun _ => none) c3Incident =
      c3Incident.incident_updates.reverse.map (postmortemTimelineLine
        (fun _ => none))) ∧
    c3Incident.incident_updates.reverse.Pairwise
      (fun a b => c3ParsedTime a ≤ c3ParsedTime b) ∧
    ∀ u, postmortemTimelineLine (fun _ => none) u =
      "- **" ++ renderPostmortemTime (fun _ => none) (u.created_at.getD "")
        ++ "** [" ++ u.status.getD "update" ++ "]: " ++ u.body.getD "" :=
  C3_timeline_chronological (fun _ => none) c3ParsedTime c3Incident
    (by decide)
/-! ## C1, C4, C5: the update path of process_incidents

`StatuspageClient.update_incident` accepts none of the keyword arguments
`impact_override` and `name` that `process_incidents` passes, so Python
raises `TypeError` at the call site before any request is sent; the
`except StatuspageError` handler does not catch it. -/

/-- The call-site / signature mismatch itself: the update call of
`process_incidents` passes keyword arguments that are not parameters of
`StatuspageClient.update_incident`. -/
theorem update_incident_kwarg_mismatch :
    process_update_call_kwargs.all
      (fun k => update_incident_params.contains k) = false := by decide

/-- A client whose every remote call succeeds. -/
def allOkIncidentClient : IncidentClient :=
  { list_unresolved := Except.ok []
    create_incident := fun _ => Except.ok { id := "new-inc-1" }
    update_incident := fun _ => Except.ok ()
    resolve_incident := fun _ => Except.ok ()
    list_incidents := Except.ok []
    create_postmortem := fun _ => Except.ok () }

/-- C1 failing input: component `Example API` at `major_outage` with an
open incident of stored impact `minor`. -/
def c1Client : IncidentClient :=
  { allOkIncidentClient with
    list_unresolved := Except.ok
      [{ id := "inc-1", impact := some "minor", components := ["c1"] }] }

/-- C1: at the failing input (major_outage over an open `minor` incident,
every remote call set to succeed) `process_incidents` issues no
incident-update request at all and crashes with an uncaught `TypeError`
instead of recording an escalated update — the escalation path never
reaches the Statuspage API. -/
theorem C1_escalation_crashes :
    (process_incidents c1Client (fun _ => none) (fun _ => none) 0 "now"
        [("api", { name := some "Example API", component_id := some "c1" })]
        [{ name := "Example API", status := "major_outage" }]
        true true true 60).2 =
      Except.error (PyErr.typeError
        "update_incident() got an unexpected keyword argument") ∧
    countUpdateCalls
      (process_incidents c1Client (fun _ => none) (fun _ => none) 0 "now"
        [("api", { name := some "Example API", component_id := some "c1" })]
        [{ name := "Example API", status := "major_outage" }]
        true true true 60).1 = 0 := by
  constructor <;> rfl

/-- C4 failing input: heartbeat update (impact unchanged, quiet period 0)
for component `DB`. -/
def c4Client : IncidentClient :=
  { allOkIncidentClient with
    list_unresolved := Except.ok
      [{ id := "inc-2", impact := some "critical", components := ["c9"] }] }

/-- C4: `process_incidents` does raise past its boundary — at this input
(open incident, impact unchanged, quiet period 0, every remote call set to
succeed) the run aborts with an uncaught `TypeError` from the
`update_incident` call site instead of capturing the failure in the errors
list; a second mapping entry after the crashing one is never processed. -/
theorem C4_typeerror_escapes_boundary :
    (process_incidents c4Client (fun _ => none) (fun _ => none) 0 "now"
        [("db", { name := some "DB", component_id := some "c9" }),
         ("web", { name := some "Web", component_id := some "c10" })]
        [{ name := "DB", status := "major_outage" }]
        true true true 0).2 =
      Except.error (PyErr.typeError
        "update_incident() got an unexpected keyword argument") := by
  rfl

/-- C5 failing input: open incident with no prior updates, impact
unchanged, quiet period 60. -/
def c5Client : IncidentClient :=
  { allOkIncidentClient with
    list_unresolved := Except.ok
      [{ id := "inc-3", impact := some "minor", components := ["c2"],
         incident_updates := [] }] }

/-- C5: an incident with no prior updates is treated as past the quiet
period and is not suppressed, but the promised update never happens: the
run crashes with the uncaught `TypeError` of the update call site, no
update request is issued and nothing is recorded. -/
theorem C5_no_prior_updates_not_updated :
    (process_incidents c5Client (fun _ => none) (fun _ => none) 0 "now"
        [("svc", { name := some "Svc", component_id := some "c2" })]
        [{ name := "Svc", status := "degraded_performance" }]
        true true true 60).2 =
      Except.error (PyErr.typeError
        "update_incident() got an unexpected keyword argument") ∧
    countUpdateCalls
      (process_incidents c5Client (fun _ => none) (fun _ => none) 0 "now"
        [("svc", { name := some "Svc", component_id := some "c2" })]
        [{ name := "Svc", status := "degraded_performance" }]
        true true true 60).1 = 0 := by
  constructor <;> rfl
/-! ## C10: mapping entries without component id or status data -/

theorem prAppend_empty_left (r : ProcessResult) : prAppend {} r = r := by
  cases r
  simp [prAppend]

/-- A mapping entry with a falsy `component_id`, or whose display name has
no component in the status report, contributes nothing: no request, no
result entries. -/
theorem incidentEntryStep_skip (client : IncidentClient)
    (parseIso : String → Option ℚ) (fmtIso : String → Option String)
    (now : ℚ) (nowStr : String) (ap ns : Bool) (q : ℤ)
    (unresolved : List Incident) (report : List ReportComponent)
    (j : String) (m : MapEntry)
    (h : m.component_id.getD "" = "" ∨
      lookupComponentData report (m.name.getD j) = none) :
    incidentEntryStep client parseIso fmtIso now nowStr ap ns q unresolved
      report j m = ([], Except.ok {}) := by
  unfold incidentEntryStep
  rcases h with h | h
  · simp [h]
  · by_cases hc : m.component_id.getD "" = ""
    · simp [hc]
    · simp [hc, h]

/-- C10: `process_incidents` silently skips a mapping entry whose
`component_id` is empty or whose display name has no matching component in
the status report: the whole run — requests issued, every result list and
the errors — is identical to the run without that entry, so the remaining
entries are processed exactly as before. -/
theorem C10_skipped_entries_contribute_nothing (client : IncidentClient)
    (parseIso : String → Option ℚ) (fmtIso : String → Option String)
    (now : ℚ) (nowStr : String) (j : String) (m : MapEntry)
    (rest : List (String × MapEntry)) (report : List ReportComponent)
    (ai ap ns : Bool) (q : ℤ)
    (h : m.component_id.getD "" = "" ∨
      lookupComponentData report (m.name.getD j) = none) :
    process_incidents client parseIso fmtIso now nowStr ((j, m) :: rest)
        report ai ap ns q =
      process_incidents client parseIso fmtIso now nowStr rest report
        ai ap ns q := by
  unfold process_incidents
  by_cases hai : ai
  · simp only [hai]
    cases hlu : client.list_unresolved with
    | error e => rfl
    | ok unresolved =>
      have hstep := incidentEntryStep_skip client parseIso fmtIso now nowStr
        ap ns q unresolved report j m h
      simp only [incidentLoop, hstep]
      cases hrest : incidentLoop client parseIso fmtIso now nowStr ap ns q
        unresolved report rest with
      | mk calls2 r2 =>
        cases r2 with
        | ok acc => simp [prAppend_empty_left]
        | error e => simp
  · simp [hai]

theorem C10_skipped_entries_witness :
    process_incidents allOkIncidentClient (fun _ => none) (fun _ => none)
        0 "now" [("ghost", { name := some "Ghost" })]
        [{ name := "Example API", status := "operational" }] true true true
        60 =
      process_incidents allOkIncidentClient (fun _ => none) (fun _ => none)
        0 "now" [] [{ name := "Example API", status := "operational" }]
        true true true 60 :=
  C10_skipped_entries_contribute_nothing allOkIncidentClient (fun _ => none)
    (fun _ => none) 0 "now" "ghost" { name := some "Ghost" } []
    [{ name := "Example API", status := "operational" }] true true true 60
    (Or.inl rfl)
/-! ## C8: the ALLOW_DELETIONS gate -/

/-- Is this Grafana request a deletion? -/
def isGDeleteAction : GAction → Bool
  | GAction.deleteCheck _ => true
  | _ => false

/-- Is this Statuspage reconciliation request a deletion? -/
def isSpDeleteAction : SpRecAction → Bool
  | SpRecAction.deleteComponent _ => true
  | SpRecAction.deleteMetric _ => true
  | _ => false

/-- The deleted list of a `reconcile_grafana` outcome (empty when the run
crashed before returning one). -/
def gDeletedOf (p : List GAction × Except PyErr (GResult × GState)) :
    List String :=
  match p.2 with
  | Except.ok (res, _) => res.deleted
  | Except.error _ => []

/-- The no-deletion property of one loop outcome of `reconcile_grafana`. -/
def GNoDelete (p : List GAction × Except PyErr (GResult × GState)) : Prop :=
  (p.1.all (fun a => !isGDeleteAction a)) = true ∧ gDeletedOf p = []

theorem gCons_noDelete (a : GAction) (f : GResult → GResult)
    (p : List GAction × Except PyErr (GResult × GState))
    (ha : isGDeleteAction a = false)
    (hf : ∀ res, (f res).deleted = res.deleted)
    (hp : GNoDelete p) : GNoDelete (gCons a f p) := by
  obtain ⟨t, r⟩ := p
  obtain ⟨h1, h2⟩ := hp
  constructor
  · simp only [gCons, List.all_cons, ha, Bool.not_false, Bool.true_and]
    exact h1
  · cases r with
    | ok q =>
      obtain ⟨res, st⟩ := q
      simp only [gDeletedOf, gCons, gOnOk] at h2 ⊢
      rw [hf res]
      exact h2
    | error e => rfl

theorem gProcess_noDelete (cli : GClient) (ebj : List (String × GCheck)) :
    ∀ (eps : List (String × Endpoint)) (st : GState),
      GNoDelete (gProcess cli ebj eps st) := by
  intro eps
  induction eps with
  | nil => intro st; exact ⟨rfl, rfl⟩
  | cons p rest ih =>
    intro st
    obtain ⟨j, e⟩ := p
    simp only [gProcess]
    split
    · exact ih st
    · split
      · split
        · exact ⟨rfl, rfl⟩
        · exact ih st
        · split
          · exact gCons_noDelete _ _ _ rfl (fun res => rfl) (ih _)
          · exact gCons_noDelete _ _ _ rfl (fun res => rfl) (ih _)
      · split
        · exact gCons_noDelete _ _ _ rfl (fun res => rfl) (ih _)
        · exact gCons_noDelete _ _ _ rfl (fun res => rfl) (ih _)

theorem gOrphanLoop_guard (cli : GClient) (desired : List String) :
    ∀ (l : List (String × GCheck)) (st : GState),
      gOrphanLoop cli false desired l st = ([], {}, st) := by
  intro l
  induction l with
  | nil => intro st; rfl
  | cons p rest ih =>
    intro st
    obtain ⟨j, c⟩ := p
    simp only [gOrphanLoop]
    split
    · exact ih st
    · rw [if_pos (show ¬ ((false : Bool) = true) by decide)]
      exact ih st

/-- The sublist of mapping entries whose key is not in `d` (the orphan part
of the mapping, when `d` is the desired key set). -/
def orphanPart (d : List String) (l : List (String × MapEntry)) :
    List (String × MapEntry) :=
  l.filter (fun p => !(d.contains p.1))

theorem orphanPart_cons (d : List String) (x : String × MapEntry)
    (l : List (String × MapEntry)) :
    orphanPart d (x :: l) =
      if d.contains x.1 then orphanPart d l else x :: orphanPart d l := by
  unfold orphanPart
  rw [List.filter_cons]
  by_cases h : d.contains x.1 <;> simp [h]

theorem orphanPart_overwrite (d : List String) (k : String) (v : MapEntry)
    (hk : d.contains k) :
    ∀ l : List (String × MapEntry),
      orphanPart d (l.map (fun p => if p.1 == k then (k, v) else p)) =
        orphanPart d l := by
  intro l
  induction l with
  | nil => rfl
  | cons p rest ih =>
    rw [List.map_cons, orphanPart_cons, orphanPart_cons]
    by_cases hp : p.1 == k
    · have hp1 : p.1 = k := by simpa using hp
      rw [if_pos hp]
      rw [show ((k, v).1 : String) = k from rfl, hp1, if_pos hk, if_pos hk]
      exact ih
    · rw [if_neg hp]
      by_cases hq : d.contains p.1
      · rw [if_pos hq, if_pos hq]
        exact ih
      · rw [if_neg hq, if_neg hq, ih]

theorem orphanPart_dictInsert (d : List String)
    (l : List (String × MapEntry)) (k : String) (v : MapEntry)
    (hk : d.contains k) :
    orphanPart d (dictInsert l k v) = orphanPart d l := by
  have hk' : k ∈ d := by simpa using hk
  unfold dictInsert
  by_cases hany : l.any (fun p => p.1 == k)
  · simp only [hany, if_true]
    exact orphanPart_overwrite d k v hk l
  · simp only [hany, if_false]
    simp [orphanPart, List.filter_append, hk']
theorem spMetricPart_frame (cli : SpRecClient)
    (mbn : List (String × SpMetric)) (j name : String) (wants : Bool)
    (mid cid : String) (st : SpState) (mapping : List (String × MapEntry))
    (d : List String) (hd : d.contains j) :
    ((spMetricPart cli mbn j name wants mid cid st mapping).1.all
      (fun a => !isSpDeleteAction a)) = true ∧
    (spMetricPart cli mbn j name wants mid cid st mapping).2.1.deleted = []
    ∧ orphanPart d
        (spMetricPart cli mbn j name wants mid cid st mapping).2.2.2 =
      orphanPart d mapping := by
  unfold spMetricPart
  dsimp only
  split
  · split
    · exact ⟨rfl, rfl, orphanPart_dictInsert d mapping j _ hd⟩
    · split
      · exact ⟨rfl, rfl, orphanPart_dictInsert d mapping j _ hd⟩
      · exact ⟨rfl, rfl, orphanPart_dictInsert d mapping j _ hd⟩
  · exact ⟨rfl, rfl, orphanPart_dictInsert d mapping j _ hd⟩

theorem spJobCons_frame (a : SpRecAction) (r0 : SpRecResult)
    (q : List SpRecAction × SpRecResult × SpState ×
      List (String × MapEntry))
    (d : List String) (mapping : List (String × MapEntry))
    (ha : isSpDeleteAction a = false) (h0 : r0.deleted = [])
    (h1 : (q.1.all (fun b => !isSpDeleteAction b)) = true)
    (h2 : q.2.1.deleted = [])
    (h3 : orphanPart d q.2.2.2 = orphanPart d mapping) :
    ((spJobCons a r0 q).1.all (fun b => !isSpDeleteAction b)) = true ∧
    (spJobCons a r0 q).2.1.deleted = [] ∧
    orphanPart d (spJobCons a r0 q).2.2.2 = orphanPart d mapping := by
  refine ⟨?_, ?_, h3⟩
  · simp only [spJobCons, List.all_cons, ha, Bool.not_false, Bool.true_and]
    exact h1
  · simp only [spJobCons, spResConcat, h0, h2, List.nil_append]

theorem spJobStep_frame (cli : SpRecClient)
    (cbn : List (String × SpComp)) (cids : List String)
    (mbn : List (String × SpMetric)) (mids : List String) (j : String)
    (e : Endpoint) (st : SpState) (mapping : List (String × MapEntry))
    (d : List String) (hd : d.contains j) :
    ((spJobStep cli cbn cids mbn mids j e st mapping).1.all
      (fun a => !isSpDeleteAction a)) = true ∧
    (spJobStep cli cbn cids mbn mids j e st mapping).2.1.deleted = [] ∧
    orphanPart d (spJobStep cli cbn cids mbn mids j e st mapping).2.2.2 =
      orphanPart d mapping := by
  unfold spJobStep
  dsimp only
  split
  · split
    · exact spMetricPart_frame cli mbn j e.name e.metric _ _ st mapping d hd
    · split
      · exact spJobCons_frame _ _ _ d mapping rfl rfl
          (spMetricPart_frame cli mbn j e.name e.metric _ _ _ mapping d
            hd).1
          (spMetricPart_frame cli mbn j e.name e.metric _ _ _ mapping d
            hd).2.1
          (spMetricPart_frame cli mbn j e.name e.metric _ _ _ mapping d
            hd).2.2
      · exact ⟨rfl, rfl, rfl⟩
  · exact spMetricPart_frame cli mbn j e.name e.metric _ _ st mapping d hd
theorem spDesiredLoop_frame (cli : SpRecClient)
    (cbn : List (String × SpComp)) (cids : List String)
    (mbn : List (String × SpMetric)) (mids : List String) (d : List String) :
    ∀ (eps : List (String × Endpoint)), (∀ p ∈ eps, d.contains p.1) →
    ∀ (st : SpState) (mapping : List (String × MapEntry)),
    ((spDesiredLoop cli cbn cids mbn mids eps st mapping).1.all
      (fun a => !isSpDeleteAction a)) = true ∧
    (spDesiredLoop cli cbn cids mbn mids eps st mapping).2.1.deleted = [] ∧
    orphanPart d (spDesiredLoop cli cbn cids mbn mids eps st
      mapping).2.2.2 = orphanPart d mapping := by
  intro eps
  induction eps with
  | nil => intro _ st mapping; exact ⟨rfl, rfl, rfl⟩
  | cons p rest ih =>
    intro hmem st mapping
    obtain ⟨j, e⟩ := p
    have hd : d.contains j = true := hmem (j, e) (List.mem_cons_self _ _)
    have hrestmem : ∀ q ∈ rest, d.contains q.1 :=
      fun q hq => hmem q (List.mem_cons_of_mem _ hq)
    simp only [spDesiredLoop]
    rcases hstep : spJobStep cli cbn cids mbn mids j e st mapping
      with ⟨t1, r1, st1, m1⟩
    have h1 := spJobStep_frame cli cbn cids mbn mids j e st mapping d hd
    rw [hstep] at h1
    rcases hrest : spDesiredLoop cli cbn cids mbn mids rest st1 m1
      with ⟨t2, r2, st2, m2⟩
    have h2 := ih hrestmem st1 m1
    rw [hrest] at h2
    dsimp only at h1 h2
    refine ⟨?_, ?_, ?_⟩
    · simp only [List.all_append, Bool.and_eq_true]
      exact ⟨h1.1, h2.1⟩
    · simp only [spResConcat, h1.2.1, h2.2.1, List.nil_append]
    · dsimp only
      rw [h2.2.2]
      exact h1.2.2

theorem spOrphanLoop_guard (cli : SpRecClient) (desired : List String) :
    ∀ (l : List (String × MapEntry)) (st : SpState)
      (mapping : List (String × MapEntry)),
      spOrphanLoop cli false desired l st mapping = ([], {}, st, mapping)
    := by
  intro l
  induction l with
  | nil => intro st mapping; rfl
  | cons p rest ih =>
    intro st mapping
    obtain ⟨j, entry0⟩ := p
    simp only [spOrphanLoop]
    split
    · exact ih st mapping
    · rw [if_pos (show ¬ ((false : Bool) = true) by decide)]
      exact ih st mapping
/-- C8: with the `ALLOW_DELETIONS` gate unset, neither `reconcile_grafana`
nor `reconcile_statuspage` issues a single delete request, both `deleted`
result lists are empty, and every orphaned mapping entry (key outside the
desired set) survives unchanged in the returned mapping — orphan deletion
is a strict no-op for each remote system independently. -/
theorem C8_deletion_gate_noop (gcli : GClient) (spcli : SpRecClient)
    (endpoints : List (String × Endpoint)) (gst : GState) (spst : SpState)
    (mapping : List (String × MapEntry)) :
    ((reconcile_grafana gcli false endpoints gst).1.all
      (fun a => !isGDeleteAction a)) = true ∧
    gDeletedOf (reconcile_grafana gcli false endpoints gst) = [] ∧
    ((reconcile_statuspage spcli false endpoints spst mapping).1.all
      (fun a => !isSpDeleteAction a)) = true ∧
    (reconcile_statuspage spcli false endpoints spst
      mapping).2.1.deleted = [] ∧
    orphanPart ((endpoints.filter (fun p => p.2.component)).map Prod.fst)
        (reconcile_statuspage spcli false endpoints spst mapping).2.2.2 =
      orphanPart ((endpoints.filter (fun p => p.2.component)).map Prod.fst)
        mapping := by
  have hgraf :
      ((reconcile_grafana gcli false endpoints gst).1.all
        (fun a => !isGDeleteAction a)) = true ∧
      gDeletedOf (reconcile_grafana gcli false endpoints gst) = [] := by
    unfold reconcile_grafana
    cases hls : gcli.listErr with
    | some e => exact ⟨rfl, rfl⟩
    | none =>
      dsimp only
      rcases hp : gProcess gcli (buildJobDict gst.checks) endpoints gst
        with ⟨t1, r1⟩
      have hnd := gProcess_noDelete gcli (buildJobDict gst.checks)
        endpoints gst
      rw [hp] at hnd
      cases r1 with
      | error exc =>
        dsimp only
        refine ⟨?_, rfl⟩
        simpa [isGDeleteAction] using hnd.1
      | ok q =>
        obtain ⟨res1, st1⟩ := q
        dsimp only
        rw [gOrphanLoop_guard gcli (endpoints.map Prod.fst)
          (buildJobDict gst.checks) st1]
        constructor
        · simpa [isGDeleteAction] using hnd.1
        · simp only [gDeletedOf, gResConcat]
          have hres : res1.deleted = [] := by
            simpa [gDeletedOf] using hnd.2
          simp [hres]
  have hd : ∀ p ∈ endpoints.filter (fun p => p.2.component),
      ((endpoints.filter (fun p => p.2.component)).map
        Prod.fst).contains p.1 := by
    intro p hp
    simpa using List.mem_map_of_mem Prod.fst hp
  have hsp :
      ((reconcile_statuspage spcli false endpoints spst mapping).1.all
        (fun a => !isSpDeleteAction a)) = true ∧
      (reconcile_statuspage spcli false endpoints spst
        mapping).2.1.deleted = [] ∧
      orphanPart ((endpoints.filter (fun p => p.2.component)).map
          Prod.fst)
          (reconcile_statuspage spcli false endpoints spst
            mapping).2.2.2 =
        orphanPart ((endpoints.filter (fun p => p.2.component)).map
          Prod.fst) mapping := by
    unfold reconcile_statuspage
    cases hlc : spcli.listComponentsErr with
    | some e => exact ⟨rfl, rfl, rfl⟩
    | none =>
      dsimp only
      cases hlm : spcli.listMetricsErr with
      | some e =>
        dsimp only
        rcases hdl : spDesiredLoop spcli (buildCompNameDict spst.components)
            (spst.components.map SpComp.id) (buildMetricNameDict [])
            (List.map SpMetric.id [])
            (endpoints.filter (fun p => p.2.component)) spst mapping
          with ⟨t1, r1, st1, m1⟩
        have h1 := spDesiredLoop_frame spcli
          (buildCompNameDict spst.components)
          (spst.components.map SpComp.id) (buildMetricNameDict [])
          (List.map SpMetric.id [])
          ((endpoints.filter (fun p => p.2.component)).map Prod.fst)
          (endpoints.filter (fun p => p.2.component)) hd spst mapping
        rw [hdl] at h1
        dsimp only at h1
        rw [spOrphanLoop_guard spcli
          ((endpoints.filter (fun p => p.2.component)).map Prod.fst) m1
          st1 m1]
        refine ⟨?_, ?_, h1.2.2⟩
        · simpa [isSpDeleteAction] using h1.1
        · simp only [spResConcat, h1.2.1]
          rfl
      | none =>
        dsimp only
        rcases hdl : spDesiredLoop spcli (buildCompNameDict spst.components)
            (spst.components.map SpComp.id)
            (buildMetricNameDict spst.metrics)
            (spst.metrics.map SpMetric.id)
            (endpoints.filter (fun p => p.2.component)) spst mapping
          with ⟨t1, r1, st1, m1⟩
        have h1 := spDesiredLoop_frame spcli
          (buildCompNameDict spst.components)
          (spst.components.map SpComp.id)
          (buildMetricNameDict spst.metrics)
          (spst.metrics.map SpMetric.id)
          ((endpoints.filter (fun p => p.2.component)).map Prod.fst)
          (endpoints.filter (fun p => p.2.component)) hd spst mapping
        rw [hdl] at h1
        dsimp only at h1
        rw [spOrphanLoop_guard spcli
          ((endpoints.filter (fun p => p.2.component)).map Prod.fst) m1
          st1 m1]
        refine ⟨?_, ?_, h1.2.2⟩
        · simpa [isSpDeleteAction] using h1.1
        · simp only [spResConcat, h1.2.1]
          rfl
  exact ⟨hgraf.1, hgraf.2, hsp.1, hsp.2.1, hsp.2.2⟩
/-! ## C7: validity of ids stored in the mapping -/

theorem dictFind_insert_cases {α : Type} (l : List (String × α))
    (k : String) (v : α) (n : String) (c : α)
    (h : dictFind (dictInsert l k v) n = some c) :
    c = v ∨ dictFind l n = some c := by
  by_cases hn : n = k
  · subst hn
    rw [dictFind_insert_self] at h
    exact Or.inl (Option.some.inj h).symm
  · rw [dictFind_insert_ne _ _ _ _ hn] at h
    exact Or.inr h

theorem dictFind_foldl_dict_mem {β : Type} (key : β → String) :
    ∀ (l : List β) (init : List (String × β)) (n : String) (c : β),
      dictFind (l.foldl (fun d x => dictInsert d (key x) x) init) n = some c
      → c ∈ l ∨ dictFind init n = some c := by
  intro l
  induction l with
  | nil => intro init n c h; exact Or.inr h
  | cons x rest ih =>
    intro init n c h
    simp only [List.foldl_cons] at h
    rcases ih _ _ _ h with h1 | h1
    · exact Or.inl (List.mem_cons_of_mem _ h1)
    · rcases dictFind_insert_cases _ _ _ _ _ h1 with h2 | h2
      · exact Or.inl (h2 ▸ List.mem_cons_self _ _)
      · exact Or.inr h2

/-- Does a component with this id exist in the remote state? -/
def compIdExists (st : SpState) (id : String) : Bool :=
  st.components.any (fun c => c.id == id)

/-- Does a metric with this id exist in the remote state? -/
def metricIdExists (st : SpState) (id : String) : Bool :=
  st.metrics.any (fun m => m.id == id)

/-- A mapping lookup result is valid against a remote state when the entry
exists and each non-empty stored id refers to an existing remote object. -/
def mappingEntryValid (st : SpState) (o : Option MapEntry) : Bool :=
  match o with
  | none => false
  | some e =>
    (e.component_id.getD "" == "" ||
      compIdExists st (e.component_id.getD "")) &&
    (e.metric_id.getD "" == "" || metricIdExists st (e.metric_id.getD ""))

/-- The remote state only grew: every id that existed still exists. -/
def spGrows (st st' : SpState) : Prop :=
  (∀ i, compIdExists st i = true → compIdExists st' i = true) ∧
  (∀ i, metricIdExists st i = true → metricIdExists st' i = true)

theorem spGrows_refl (st : SpState) : spGrows st st :=
  ⟨fun _ h => h, fun _ h => h⟩

theorem spGrows_trans {a b c : SpState} (h1 : spGrows a b)
    (h2 : spGrows b c) : spGrows a c :=
  ⟨fun i h => h2.1 i (h1.1 i h), fun i h => h2.2 i (h1.2 i h)⟩

theorem mappingEntryValid_mono {st st' : SpState} (h : spGrows st st')
    (o : Option MapEntry) (hv : mappingEntryValid st o = true) :
    mappingEntryValid st' o = true := by
  cases o with
  | none => simp [mappingEntryValid] at hv
  | some e =>
    simp only [mappingEntryValid, Bool.and_eq_true, Bool.or_eq_true] at hv ⊢
    constructor
    · rcases hv.1 with h1 | h1
      · exact Or.inl h1
      · exact Or.inr (h.1 _ h1)
    · rcases hv.2 with h1 | h1
      · exact Or.inl h1
      · exact Or.inr (h.2 _ h1)

theorem spValidatedId_spec (s : String) (ids : List String) :
    spValidatedId s ids = "" ∨
      (spValidatedId s ids = s ∧ ids.contains s = true) := by
  unfold spValidatedId
  split
  · exact Or.inl rfl
  · rename_i h
    simp only [Bool.and_eq_true, bne_iff_ne, ne_eq, Bool.not_eq_true] at h
    by_cases hs : s = ""
    · exact Or.inl hs
    · right
      refine ⟨rfl, ?_⟩
      by_cases hc : ids.contains s
      · exact hc
      · exfalso
        exact h ⟨hs, by simpa using hc⟩
theorem spMetricPart_valid (cli : SpRecClient)
    (mbn : List (String × SpMetric)) (j name : String) (wants : Bool)
    (mid cid : String) (st : SpState) (mapping : List (String × MapEntry))
    (hmbn : ∀ n m, dictFind mbn n = some m → metricIdExists st m.id = true)
    (hmid : mid = "" ∨ metricIdExists st mid = true)
    (hcid : cid = "" ∨ compIdExists st cid = true) :
    spGrows st (spMetricPart cli mbn j name wants mid cid st
      mapping).2.2.1 ∧
    mappingEntryValid (spMetricPart cli mbn j name wants mid cid st
        mapping).2.2.1
      (dictFind (spMetricPart cli mbn j name wants mid cid st
        mapping).2.2.2 j) = true := by
  have hcidb : (cid == "" || compIdExists st cid) = true := by
    rcases hcid with h | h
    · simp [h]
    · simp [h]
  unfold spMetricPart
  dsimp only
  split
  · rename_i hcond
    have hwants : wants = true := by
      cases wants
      · simp at hcond
      · rfl
    split
    · rename_i mt hmt
      refine ⟨spGrows_refl st, ?_⟩
      rw [dictFind_insert_self]
      simp only [mappingEntryValid, Bool.and_eq_true]
      refine ⟨hcidb, ?_⟩
      have := hmbn _ _ hmt
      simp [storedMetricId, hwants, this]
    · split
      · rename_i herrm
        have hgrow : spGrows st { st with
            metrics := st.metrics ++
              [{ id := freshMetricId st.nextId, name := name ++ " Latency" }]
            nextId := st.nextId + 1 } := by
          constructor
          · intro i h
            simpa [compIdExists] using h
          · intro i h
            simp only [metricIdExists, List.any_append, Bool.or_eq_true]
            exact Or.inl h
        refine ⟨hgrow, ?_⟩
        rw [dictFind_insert_self]
        simp only [mappingEntryValid, Bool.and_eq_true]
        constructor
        · rcases hcid with h | h
          · simp [h]
          · simp [hgrow.1 _ h]
        · simp [storedMetricId, hwants, metricIdExists, List.any_append]
      · refine ⟨spGrows_refl st, ?_⟩
        rw [dictFind_insert_self]
        simp [mappingEntryValid, hcidb, storedMetricId, hwants]
  · rename_i hcond
    refine ⟨spGrows_refl st, ?_⟩
    rw [dictFind_insert_self]
    simp only [mappingEntryValid, Bool.and_eq_true]
    refine ⟨hcidb, ?_⟩
    cases hw : wants with
    | false => simp [storedMetricId]
    | true =>
      have hmidne : ¬ (mid == "") = true := by
        intro hmide
        rw [hw] at hcond
        simp [hmide] at hcond
      rcases hmid with h | h
      · exact absurd (by simp [h]) hmidne
      · simp [storedMetricId, h]
theorem spMetricPart_find_frame (cli : SpRecClient)
    (mbn : List (String × SpMetric)) (j name : String) (wants : Bool)
    (mid cid : String) (st : SpState) (mapping : List (String × MapEntry))
    (k : String) (hk : k ≠ j) :
    dictFind (spMetricPart cli mbn j name wants mid cid st mapping).2.2.2 k
      = dictFind mapping k := by
  unfold spMetricPart
  dsimp only
  split
  · split
    · exact dictFind_insert_ne _ _ _ _ hk
    · split
      · exact dictFind_insert_ne _ _ _ _ hk
      · exact dictFind_insert_ne _ _ _ _ hk
  · exact dictFind_insert_ne _ _ _ _ hk

theorem spJobStep_find_frame (cli : SpRecClient)
    (cbn : List (String × SpComp)) (cids : List String)
    (mbn : List (String × SpMetric)) (mids : List String) (j : String)
    (e : Endpoint) (st : SpState) (mapping : List (String × MapEntry))
    (k : String) (hk : k ≠ j) :
    dictFind (spJobStep cli cbn cids mbn mids j e st mapping).2.2.2 k =
      dictFind mapping k := by
  unfold spJobStep
  dsimp only
  split
  · split
    · exact spMetricPart_find_frame cli mbn j e.name e.metric _ _ st
        mapping k hk
    · split
      · simp only [spJobCons]
        exact spMetricPart_find_frame cli mbn j e.name e.metric _ _ _
          mapping k hk
      · rfl
  · exact spMetricPart_find_frame cli mbn j e.name e.metric _ _ st
      mapping k hk

theorem spJobStep_valid (cli : SpRecClient)
    (cbn : List (String × SpComp)) (cids : List String)
    (mbn : List (String × SpMetric)) (mids : List String) (j : String)
    (e : Endpoint) (st : SpState) (mapping : List (String × MapEntry))
    (hc : ∀ id, cids.contains id = true → compIdExists st id = true)
    (hcbn : ∀ n c, dictFind cbn n = some c → compIdExists st c.id = true)
    (hmbn : ∀ n m, dictFind mbn n = some m → metricIdExists st m.id = true)
    (hmids : ∀ id, mids.contains id = true → metricIdExists st id = true) :
    spGrows st (spJobStep cli cbn cids mbn mids j e st mapping).2.2.1 ∧
    ((spJobStep cli cbn cids mbn mids j e st mapping).2.1.errors = [] →
      mappingEntryValid (spJobStep cli cbn cids mbn mids j e st
          mapping).2.2.1
        (dictFind (spJobStep cli cbn cids mbn mids j e st mapping).2.2.2 j)
        = true) := by
  have hmid : ∀ s, spValidatedId s mids = "" ∨
      metricIdExists st (spValidatedId s mids) = true := by
    intro s
    rcases spValidatedId_spec s mids with h | ⟨h1, h2⟩
    · exact Or.inl h
    · exact Or.inr (by rw [h1]; exact hmids s h2)
  have hcval : ∀ s, spValidatedId s cids = "" ∨
      compIdExists st (spValidatedId s cids) = true := by
    intro s
    rcases spValidatedId_spec s cids with h | ⟨h1, h2⟩
    · exact Or.inl h
    · exact Or.inr (by rw [h1]; exact hc s h2)
  unfold spJobStep
  dsimp only
  split
  · split
    · rename_i c hcfind
      have h := spMetricPart_valid cli mbn j e.name e.metric
        (spValidatedId (((dictFind mapping j).getD ({} : MapEntry)).metric_id.getD "") mids) c.id st
        mapping hmbn (hmid _) (Or.inr (hcbn _ _ hcfind))
      exact ⟨h.1, fun _ => h.2⟩
    · split
      · rename_i hcreate
        have hgrow : spGrows st { st with
            components := st.components ++
              [{ id := freshCompId st.nextId, name := e.name }]
            nextId := st.nextId + 1 } := by
          constructor
          · intro i h
            simp only [compIdExists, List.any_append, Bool.or_eq_true]
            exact Or.inl h
          · intro i h
            simpa [metricIdExists] using h
        have hmbn' : ∀ n m, dictFind mbn n = some m →
            metricIdExists { st with
              components := st.components ++
                [{ id := freshCompId st.nextId, name := e.name }]
              nextId := st.nextId + 1 } m.id = true :=
          fun n m hm => hgrow.2 _ (hmbn n m hm)
        have hmid' : ∀ s, spValidatedId s mids = "" ∨
            metricIdExists { st with
              components := st.components ++
                [{ id := freshCompId st.nextId, name := e.name }]
              nextId := st.nextId + 1 } (spValidatedId s mids) = true := by
          intro s
          rcases hmid s with h | h
          · exact Or.inl h
          · exact Or.inr (hgrow.2 _ h)
        have hcid' : freshCompId st.nextId = "" ∨
            compIdExists { st with
              components := st.components ++
                [{ id := freshCompId st.nextId, name := e.name }]
              nextId := st.nextId + 1 } (freshCompId st.nextId) = true := by
          right
          simp [compIdExists, List.any_append]
        have h := spMetricPart_valid cli mbn j e.name e.metric
          (spValidatedId (((dictFind mapping j).getD ({} : MapEntry)).metric_id.getD "") mids) (freshCompId st.nextId)
          { st with
             components := st.components ++
               [{ id := freshCompId st.nextId, name := e.name }]
             nextId := st.nextId + 1 }
          mapping hmbn' (hmid' _) hcid'
        simp only [spJobCons]
        refine ⟨spGrows_trans hgrow h.1, fun _ => h.2⟩
      · refine ⟨spGrows_refl st, ?_⟩
        intro h
        simp at h
  · have h := spMetricPart_valid cli mbn j e.name e.metric
      (spValidatedId (((dictFind mapping j).getD ({} : MapEntry)).metric_id.getD "") mids)
      (spValidatedId (((dictFind mapping j).getD
        ({} : MapEntry)).component_id.getD "") cids) st mapping
      hmbn (hmid _) (hcval _)
    exact ⟨h.1, fun _ => h.2⟩
theorem spDesiredLoop_find_frame (cli : SpRecClient)
    (cbn : List (String × SpComp)) (cids : List String)
    (mbn : List (String × SpMetric)) (mids : List String) :
    ∀ (eps : List (String × Endpoint)) (st : SpState)
      (mapping : List (String × MapEntry)) (k : String),
      (∀ p ∈ eps, p.1 ≠ k) →
      dictFind (spDesiredLoop cli cbn cids mbn mids eps st mapping).2.2.2 k
        = dictFind mapping k := by
  intro eps
  induction eps with
  | nil => intro st mapping k _; rfl
  | cons p rest ih =>
    intro st mapping k hk
    obtain ⟨j, e⟩ := p
    have hj : j ≠ k := hk (j, e) (List.mem_cons_self _ _)
    simp only [spDesiredLoop]
    rcases hstep : spJobStep cli cbn cids mbn mids j e st mapping
      with ⟨t1, r1, st1, m1⟩
    dsimp only
    have hframe := spJobStep_find_frame cli cbn cids mbn mids j e st
      mapping k (Ne.symm hj)
    rw [hstep] at hframe
    rcases hrest : spDesiredLoop cli cbn cids mbn mids rest st1 m1
      with ⟨t2, r2, st2, m2⟩
    have h2 := ih st1 m1 k (fun q hq => hk q (List.mem_cons_of_mem _ hq))
    rw [hrest] at h2
    dsimp only at hframe h2 ⊢
    rw [h2, hframe]

theorem spDesiredLoop_valid (cli : SpRecClient)
    (cbn : List (String × SpComp)) (cids : List String)
    (mbn : List (String × SpMetric)) (mids : List String) :
    ∀ (eps : List (String × Endpoint)) (st : SpState)
      (mapping : List (String × MapEntry)),
      (∀ id, cids.contains id = true → compIdExists st id = true) →
      (∀ n c, dictFind cbn n = some c → compIdExists st c.id = true) →
      (∀ n m, dictFind mbn n = some m → metricIdExists st m.id = true) →
      (∀ id, mids.contains id = true → metricIdExists st id = true) →
      spGrows st (spDesiredLoop cli cbn cids mbn mids eps st
        mapping).2.2.1 ∧
      ((spDesiredLoop cli cbn cids mbn mids eps st mapping).2.1.errors = []
        → ∀ p ∈ eps,
          mappingEntryValid
            (spDesiredLoop cli cbn cids mbn mids eps st mapping).2.2.1
            (dictFind (spDesiredLoop cli cbn cids mbn mids eps st
              mapping).2.2.2 p.1) = true) := by
  intro eps
  induction eps with
  | nil =>
    intro st mapping _ _ _ _
    exact ⟨spGrows_refl st, fun _ p hp => absurd hp (List.not_mem_nil p)⟩
  | cons p rest ih =>
    intro st mapping hc hcbn hmbn hmids
    obtain ⟨j, e⟩ := p
    simp only [spDesiredLoop]
    rcases hstep : spJobStep cli cbn cids mbn mids j e st mapping
      with ⟨t1, r1, st1, m1⟩
    have h1 := spJobStep_valid cli cbn cids mbn mids j e st mapping hc
      hcbn hmbn hmids
    rw [hstep] at h1
    dsimp only at h1
    rcases hrest : spDesiredLoop cli cbn cids mbn mids rest st1 m1
      with ⟨t2, r2, st2, m2⟩
    have h2 := ih st1 m1
      (fun id h => h1.1.1 id (hc id h))
      (fun n c h => h1.1.1 _ (hcbn n c h))
      (fun n m h => h1.1.2 _ (hmbn n m h))
      (fun id h => h1.1.2 id (hmids id h))
    rw [hrest] at h2
    dsimp only at h2 ⊢
    refine ⟨spGrows_trans h1.1 h2.1, ?_⟩
    intro herr q hq
    have herr1 : r1.errors = [] ∧ r2.errors = [] := by
      simp only [spResConcat] at herr
      exact List.append_eq_nil.mp herr
    rcases List.mem_cons.mp hq with hq1 | hq1
    · subst hq1
      by_cases hkey : ∀ p ∈ rest, p.1 ≠ j
      · have hfr := spDesiredLoop_find_frame cli cbn cids mbn mids rest
          st1 m1 j hkey
        rw [hrest] at hfr
        dsimp only at hfr
        rw [hfr]
        exact mappingEntryValid_mono h2.1 _ (h1.2 herr1.1)
      · push_neg at hkey
        obtain ⟨q', hq', hq'eq⟩ := hkey
        have := h2.2 herr1.2 q' hq'
        rwa [hq'eq] at this
    · exact h2.2 herr1.2 q hq1
theorem compSnapshot_sound (st : SpState) :
    ∀ id, (st.components.map SpComp.id).contains id = true →
      compIdExists st id = true := by
  intro id h
  rw [List.contains_iff_exists_mem_beq] at h
  obtain ⟨i, hi, hbeq⟩ := h
  obtain ⟨c, hc, rfl⟩ := List.mem_map.mp hi
  have hid : id = c.id := by simpa using hbeq
  simp only [compIdExists, List.any_eq_true]
  exact ⟨c, hc, by simp [hid]⟩

theorem metricSnapshot_sound (st : SpState) :
    ∀ id, (st.metrics.map SpMetric.id).contains id = true →
      metricIdExists st id = true := by
  intro id h
  rw [List.contains_iff_exists_mem_beq] at h
  obtain ⟨i, hi, hbeq⟩ := h
  obtain ⟨m, hm, rfl⟩ := List.mem_map.mp hi
  have hid : id = m.id := by simpa using hbeq
  simp only [metricIdExists, List.any_eq_true]
  exact ⟨m, hm, by simp [hid]⟩

theorem compNameDict_sound (st : SpState) :
    ∀ n c, dictFind (buildCompNameDict st.components) n = some c →
      compIdExists st c.id = true := by
  intro n c h
  rcases dictFind_foldl_dict_mem (fun c : SpComp => c.name)
    st.components [] n c h with h1 | h1
  · simp only [compIdExists, List.any_eq_true]
    exact ⟨c, h1, by simp⟩
  · simp [dictFind] at h1

theorem metricNameDict_sound (ms : List SpMetric) (st : SpState)
    (hms : ∀ m ∈ ms, metricIdExists st m.id = true) :
    ∀ n m, dictFind (buildMetricNameDict ms) n = some m →
      metricIdExists st m.id = true := by
  intro n m h
  rcases dictFind_foldl_dict_mem (fun m : SpMetric => m.name) ms [] n m h
    with h1 | h1
  · exact hms m h1
  · simp [dictFind] at h1
/-- C7 (amended): after a `reconcile_statuspage` pass with the deletion
gate unset that reports no errors, the returned mapping holds an entry for
every desired job, and each non-empty `component_id`/`metric_id` stored in
those desired entries refers to an object existing remotely at the end of
the pass — listed, adopted by name, or created during the pass; dangling
stored ids of desired entries are discarded and regenerated.  (Orphan
entries, outside the desired set, are exempt: the source leaves them
untouched, stale ids included.) -/
theorem C7_desired_entry_ids_valid (cli : SpRecClient)
    (endpoints : List (String × Endpoint)) (st : SpState)
    (mapping : List (String × MapEntry))
    (herr : (reconcile_statuspage cli false endpoints st
      mapping).2.1.errors = []) :
    ∀ p ∈ endpoints.filter (fun p => p.2.component),
      mappingEntryValid
        (reconcile_statuspage cli false endpoints st mapping).2.2.1
        (dictFind (reconcile_statuspage cli false endpoints st
          mapping).2.2.2 p.1) = true := by
  unfold reconcile_statuspage at herr ⊢
  cases hlc : cli.listComponentsErr with
  | some e =>
    rw [hlc] at herr
    simp at herr
  | none =>
    rw [hlc] at herr
    dsimp only at herr ⊢
    cases hlm : cli.listMetricsErr with
    | some e =>
      rw [hlm] at herr
      dsimp only at herr ⊢
      rcases hdl : spDesiredLoop cli (buildCompNameDict st.components)
          (st.components.map SpComp.id) (buildMetricNameDict [])
          (List.map SpMetric.id [])
          (endpoints.filter (fun p => p.2.component)) st mapping
        with ⟨t1, r1, st1, m1⟩
      rw [hdl] at herr
      dsimp only at herr ⊢
      rw [spOrphanLoop_guard cli
        ((endpoints.filter (fun p => p.2.component)).map Prod.fst) m1 st1
        m1] at herr ⊢
      dsimp only at herr ⊢
      have herr1 : r1.errors = [] := by
        simpa [spResConcat] using herr
      have hv := spDesiredLoop_valid cli (buildCompNameDict st.components)
        (st.components.map SpComp.id) (buildMetricNameDict [])
        (List.map SpMetric.id [])
        (endpoints.filter (fun p => p.2.component)) st mapping
        (compSnapshot_sound st)
        (compNameDict_sound st)
        (by intro n m h; simp [buildMetricNameDict, dictFind] at h)
        (by intro id h; simp at h)
      rw [hdl] at hv
      dsimp only at hv
      exact hv.2 herr1
    | none =>
      rw [hlm] at herr
      dsimp only at herr ⊢
      rcases hdl : spDesiredLoop cli (buildCompNameDict st.components)
          (st.components.map SpComp.id) (buildMetricNameDict st.metrics)
          (st.metrics.map SpMetric.id)
          (endpoints.filter (fun p => p.2.component)) st mapping
        with ⟨t1, r1, st1, m1⟩
      rw [hdl] at herr
      dsimp only at herr ⊢
      rw [spOrphanLoop_guard cli
        ((endpoints.filter (fun p => p.2.component)).map Prod.fst) m1 st1
        m1] at herr ⊢
      dsimp only at herr ⊢
      have herr1 : r1.errors = [] := by
        simpa [spResConcat] using herr
      have hv := spDesiredLoop_valid cli (buildCompNameDict st.components)
        (st.components.map SpComp.id) (buildMetricNameDict st.metrics)
        (st.metrics.map SpMetric.id)
        (endpoints.filter (fun p => p.2.component)) st mapping
        (compSnapshot_sound st)
        (compNameDict_sound st)
        (metricNameDict_sound st.metrics st (by
          intro m hm
          simp only [metricIdExists, List.any_eq_true]
          exact ⟨m, hm, by simp⟩))
        (metricSnapshot_sound st)
      rw [hdl] at hv
      dsimp only at hv
      exact hv.2 herr1

/-- C7 counterexample: with the deletion gate unset, an orphaned mapping
entry whose stored `component_id` no longer exists remotely is left
dangling in the returned mapping even though the pass reports no errors —
a stored id absent from the fresh inventory is not discarded for orphans.
-/
theorem C7_counterexample :
    (reconcile_statuspage {} false [] {}
        [("old", { name := some "Old", component_id := some "zzz",
                   metric_id := some "" })]).2.1.errors = [] ∧
    mappingEntryValid
      (reconcile_statuspage {} false [] {}
        [("old", { name := some "Old", component_id := some "zzz",
                   metric_id := some "" })]).2.2.1
      (dictFind (reconcile_statuspage {} false [] {}
        [("old", { name := some "Old", component_id := some "zzz",
                   metric_id := some "" })]).2.2.2 "old") = false := by
  constructor <;> rfl

theorem C7_desired_entry_ids_valid_witness :
    mappingEntryValid
      (reconcile_statuspage {} false
        [("web", { name := "Web", url := "https://x" })] {} []).2.2.1
      (dictFind (reconcile_statuspage {} false
        [("web", { name := "Web", url := "https://x" })] {} []).2.2.2
        "web") = true :=
  C7_desired_entry_ids_valid {}
    [("web", { name := "Web", url := "https://x" })] {} [] (by rfl)
    ("web", { name := "Web", url := "https://x" }) (by decide)
/-! ## C6: idempotence of reconciliation -/

/-- The last check in listing order carrying a given job label (the value
`existing_by_job` associates with that job). -/
def lastWithJob : List GCheck → String → Option GCheck
  | [], _ => none
  | c :: rest, j =>
    match lastWithJob rest j with
    | some c' => some c'
    | none => if c.job == j then some c else none

theorem dictFind_foldl_job (l : List GCheck) :
    ∀ (init : List (String × GCheck)) (j : String),
      dictFind (l.foldl (fun d c => dictInsert d c.job c) init) j =
        match lastWithJob l j with
        | some c => some c
        | none => dictFind init j := by
  induction l with
  | nil => intro init j; rfl
  | cons c rest ih =>
    intro init j
    simp only [List.foldl_cons, lastWithJob]
    rw [ih]
    cases hrest : lastWithJob rest j with
    | some c' => rfl
    | none =>
      by_cases hj : c.job = j
      · subst hj
        simp [dictFind_insert_self]
      · rw [dictFind_insert_ne _ _ _ _ (Ne.symm hj)]
        have : ¬ (c.job == j) = true := by simpa using hj
        simp [this]

theorem dictFind_buildJobDict (l : List GCheck) (j : String) :
    dictFind (buildJobDict l) j = lastWithJob l j := by
  unfold buildJobDict
  rw [dictFind_foldl_job]
  cases lastWithJob l j <;> rfl

theorem lastWithJob_job (l : List GCheck) (j : String) (c : GCheck)
    (h : lastWithJob l j = some c) : c.job = j ∧ c ∈ l := by
  induction l with
  | nil => simp [lastWithJob] at h
  | cons a rest ih =>
    simp only [lastWithJob] at h
    cases hrest : lastWithJob rest j with
    | some c' =>
      rw [hrest] at h
      obtain ⟨h1, h2⟩ := ih (hrest.trans (by injection h with h; rw [h]))
      injection h with h
      subst h
      exact ⟨h1, List.mem_cons_of_mem _ h2⟩
    | none =>
      rw [hrest] at h
      by_cases hj : (a.job == j) = true
      · rw [if_pos hj] at h
        injection h with h
        subst h
        exact ⟨by simpa using hj, List.mem_cons_self _ _⟩
      · rw [if_neg hj] at h
        cases h

theorem lastWithJob_append_one (l : List GCheck) (c : GCheck)
    (j : String) :
    lastWithJob (l ++ [c]) j =
      if c.job == j then some c else lastWithJob l j := by
  induction l with
  | nil =>
    simp only [List.nil_append, lastWithJob]
  | cons a rest ih =>
    simp only [List.cons_append, lastWithJob, List.append_eq]
    rw [ih]
    by_cases h : (c.job == j) = true
    · simp [h]
    · simp [h]
theorem lastWithJob_none_iff (l : List GCheck) (j : String) :
    lastWithJob l j = none ↔ ∀ c ∈ l, ¬ (c.job == j) = true := by
  induction l with
  | nil => simp [lastWithJob]
  | cons a rest ih =>
    simp only [lastWithJob]
    cases hrest : lastWithJob rest j with
    | some c' =>
      simp only [reduceCtorEq, false_iff]
      intro h
      have := (ih.mpr (fun c hc => h c (List.mem_cons_of_mem _ hc)))
      rw [this] at hrest
      cases hrest
    | none =>
      constructor
      · intro h c hc
        rcases List.mem_cons.mp hc with rfl | hc
        · intro hj
          rw [if_pos hj] at h
          cases h
        · exact ih.mp hrest c hc
      · intro h
        have ha := h a (List.mem_cons_self _ _)
        simp [ha]

theorem map_gPatch_id_of_absent (l : List GCheck) (i : Nat)
    (jb url : String) (freq : Int) (ps : List Int)
    (h : ∀ c ∈ l, c.id ≠ i) :
    l.map (gPatch i jb url freq ps) = l := by
  induction l with
  | nil => rfl
  | cons a rest ih =>
    simp only [List.map_cons]
    rw [ih (fun c hc => h c (List.mem_cons_of_mem _ hc))]
    have ha := h a (List.mem_cons_self _ _)
    simp [gPatch, ha]

theorem lastWithJob_map_gPatch_self (l : List GCheck) (i : Nat)
    (jb url : String) (freq : Int) (ps : List Int)
    (hnodup : (l.map GCheck.id).Nodup) (c0 : GCheck)
    (h0 : lastWithJob l jb = some c0) (hi : c0.id = i) :
    lastWithJob (l.map (gPatch i jb url freq ps)) jb =
      some (gPatch i jb url freq ps c0) := by
  induction l with
  | nil => simp [lastWithJob] at h0
  | cons a rest ih =>
    simp only [List.map_cons, lastWithJob] at h0 ⊢
    have hnodup' : (rest.map GCheck.id).Nodup := by
      simpa using (List.nodup_cons.mp (by simpa using hnodup)).2
    have hanotin : a.id ∉ rest.map GCheck.id :=
      (List.nodup_cons.mp (by simpa using hnodup)).1
    cases hrest : lastWithJob rest jb with
    | some c' =>
      rw [hrest] at h0
      injection h0 with h0
      subst h0
      rw [ih hnodup' hrest]
    | none =>
      rw [hrest] at h0
      by_cases hj : (a.job == jb) = true
      · rw [if_pos hj] at h0
        injection h0 with h0
        subst h0
        have habs : ∀ c ∈ rest, c.id ≠ i := by
          intro c hc hci
          exact hanotin (by
            rw [hi, ← hci]
            exact List.mem_map_of_mem GCheck.id hc)
        rw [map_gPatch_id_of_absent rest i jb url freq ps habs, hrest]
        have hpa : gPatch i jb url freq ps a =
            { a with job := jb, target := url, frequency := freq,
                     probes := ps } := by
          simp [gPatch, hi]
        rw [hpa]
        simp
      · rw [if_neg hj] at h0
        cases h0

theorem lastWithJob_map_gPatch_frame (l : List GCheck) (i : Nat)
    (jb url : String) (freq : Int) (ps : List Int)
    (hnodup : (l.map GCheck.id).Nodup)
    (hjob : ∀ c ∈ l, c.id = i → c.job = jb)
    (j' : String) (hj' : j' ≠ jb) :
    lastWithJob (l.map (gPatch i jb url freq ps)) j' =
      lastWithJob l j' := by
  induction l with
  | nil => rfl
  | cons a rest ih =>
    have hnodup' : (rest.map GCheck.id).Nodup := by
      simpa using (List.nodup_cons.mp (by simpa using hnodup)).2
    have hjob' : ∀ c ∈ rest, c.id = i → c.job = jb :=
      fun c hc => hjob c (List.mem_cons_of_mem _ hc)
    simp only [List.map_cons, lastWithJob]
    rw [ih hnodup' hjob']
    cases hrest : lastWithJob rest j' with
    | some c' => rfl
    | none =>
      by_cases ha : a.id = i
      · have haj : a.job = jb := hjob a (List.mem_cons_self _ _) ha
        have h1 : ¬ ((gPatch i jb url freq ps a).job == j') = true := by
          simp [gPatch, ha, Ne.symm hj']
        have h2 : ¬ (a.job == j') = true := by
          simp [haj, Ne.symm hj']
        simp [h1, h2]
      · have : gPatch i jb url freq ps a = a := by simp [gPatch, ha]
        rw [this]
/-- Well-formed remote Grafana state: distinct check ids, all below the
fresh-id counter. -/
def GStateWF (st : GState) : Prop :=
  (st.checks.map GCheck.id).Nodup ∧ ∀ c ∈ st.checks, c.id < st.nextId

/-- A job is converged in a remote state: its listed check (the one
`existing_by_job` would pick) carries exactly the configured target,
frequency and (order-insensitively) probes. -/
def gConverged (st : GState) (j : String) (e : Endpoint) : Prop :=
  ∃ c, lastWithJob st.checks j = some c ∧ c.target = e.url ∧
    c.frequency = e.frequency ∧
    ∀ ps, e.probes = some ps → sortInts c.probes = sortInts ps

theorem gPatch_id (i : Nat) (jb url : String) (freq : Int) (ps : List Int)
    (c : GCheck) : (gPatch i jb url freq ps c).id = c.id := by
  unfold gPatch
  split <;> rfl

theorem map_gPatch_ids (l : List GCheck) (i : Nat) (jb url : String)
    (freq : Int) (ps : List Int) :
    (l.map (gPatch i jb url freq ps)).map GCheck.id =
      l.map GCheck.id := by
  induction l with
  | nil => rfl
  | cons a rest ih => simp [gPatch_id, ih]
/-- When `needs_update` evaluates to `False`, every compared field of the
existing check already matches the endpoint. -/
theorem gNeedsUpdate_ok_false (ex : GCheck) (e : Endpoint)
    (h : gNeedsUpdate ex e = Except.ok false) :
    ex.target = e.url ∧ ex.frequency = e.frequency ∧
    ∀ ps, e.probes = some ps → sortInts ex.probes = sortInts ps := by
  unfold gNeedsUpdate at h
  by_cases hc : (ex.target != e.url || ex.frequency != e.frequency) = true
  · rw [if_pos hc] at h
    exact absurd h (by simp)
  · rw [if_neg hc] at h
    simp only [Bool.or_eq_true, not_or, Bool.not_eq_true,
      bne_eq_false_iff_eq] at hc
    refine ⟨hc.1, hc.2, ?_⟩
    intro ps hps
    rw [hps] at h
    injection h with h
    simpa using h
/-- Converse: a check whose target, frequency and (sorted) probes already
match the endpoint yields `needs_update = False`. -/
theorem gNeedsUpdate_of_converged (ex : GCheck) (e : Endpoint) (ps : List Int)
    (h1 : ex.target = e.url) (h2 : ex.frequency = e.frequency)
    (hps : e.probes = some ps) (h3 : sortInts ex.probes = sortInts ps) :
    gNeedsUpdate ex e = Except.ok false := by
  unfold gNeedsUpdate
  rw [if_neg (by simp [h1, h2]), hps]
  simp [h3]
theorem gProcess_run_characterization (cli : GClient)
    (snap0 : List (String × GCheck)) :
    ∀ (eps : List (String × Endpoint)) (st : GState),
    GStateWF st →
    (∀ p ∈ eps, lastWithJob st.checks p.1 = dictFind snap0 p.1) →
    (eps.map Prod.fst).Nodup →
    ∀ t res st2, gProcess cli snap0 eps st = (t, Except.ok (res, st2)) →
    res.errors = [] →
    GStateWF st2 ∧
    (∀ p ∈ eps, p.2.url ≠ "" → gConverged st2 p.1 p.2) ∧
    (∀ j, j ∉ eps.map Prod.fst →
      lastWithJob st2.checks j = lastWithJob st.checks j) := by
  intro eps
  induction eps with
  | nil =>
    intro st hwf _ _ t res st2 hgp _
    simp only [gProcess] at hgp
    injection hgp with ht hok
    injection hok with hok
    injection hok with hres hst
    subst hres
    subst hst
    exact ⟨hwf, fun p hp => absurd hp (List.not_mem_nil p),
      fun j _ => rfl⟩
  | cons p rest ih =>
    intro st hwf hsnap hkeys t res st2 hgp herr
    obtain ⟨j, e⟩ := p
    have hmapcons : (((j, e) :: rest).map Prod.fst) =
      j :: rest.map Prod.fst := rfl
    rw [hmapcons] at hkeys
    have hkeys2 : (rest.map Prod.fst).Nodup := (List.nodup_cons.mp hkeys).2
    have hjnotin : j ∉ rest.map Prod.fst := (List.nodup_cons.mp hkeys).1
    have hsnapr : ∀ q ∈ rest, lastWithJob st.checks q.1 = dictFind snap0 q.1
      := fun q hq => hsnap q (List.mem_cons_of_mem _ hq)
    simp only [gProcess] at hgp
    by_cases hurl : e.url = ""
    · rw [if_pos hurl] at hgp
      have hres := ih st hwf hsnapr hkeys2 t res st2 hgp herr
      refine ⟨hres.1, ?_, ?_⟩
      · intro q hq hqurl
        rcases List.mem_cons.mp hq with heq | hq
        · subst heq
          exact absurd hurl hqurl
        · exact hres.2.1 q hq hqurl
      · intro jx hjx
        rw [hmapcons] at hjx
        exact hres.2.2 jx
          (fun h => hjx (List.mem_cons_of_mem _ h))
    · rw [if_neg hurl] at hgp
      cases hfind : dictFind snap0 j with
      | some existing =>
        rw [hfind] at hgp
        dsimp only at hgp
        have hlast : lastWithJob st.checks j = some existing :=
          (hsnap (j, e) (List.mem_cons_self _ _)).trans hfind
        have hexjob : existing.job = j ∧ existing ∈ st.checks :=
          lastWithJob_job st.checks j existing hlast
        cases hnu : gNeedsUpdate existing e with
        | error exc =>
          rw [hnu] at hgp
          dsimp only at hgp
          exact absurd hgp (by simp)
        | ok b =>
          rw [hnu] at hgp
          cases b with
          | false =>
            dsimp only at hgp
            have hflds := gNeedsUpdate_ok_false existing e hnu
            have hres := ih st hwf hsnapr hkeys2 t res st2 hgp herr
            refine ⟨hres.1, ?_, ?_⟩
            · intro q hq hqurl
              rcases List.mem_cons.mp hq with heq | hq
              · subst heq
                refine ⟨existing, ?_, hflds.1, hflds.2.1, hflds.2.2⟩
                rw [hres.2.2 j hjnotin]
                exact hlast
              · exact hres.2.1 q hq hqurl
            · intro jx hjx
              rw [hmapcons] at hjx
              exact hres.2.2 jx
                (fun h => hjx (List.mem_cons_of_mem _ h))
          | true =>
            dsimp only at hgp
            cases hupd : cli.updateErr j with
            | some err =>
              rw [hupd] at hgp
              dsimp only at hgp
              rcases hrec : gProcess cli snap0 rest st with ⟨t2, r2⟩
              rw [hrec] at hgp
              simp only [gCons, gOnOk] at hgp
              cases r2 with
              | error exc => simp at hgp
              | ok q2 =>
                obtain ⟨res2, st3⟩ := q2
                simp only at hgp
                injection hgp with ht hok
                injection hok with hok
                injection hok with hres2 hst2
                subst hres2
                simp at herr
            | none =>
              rw [hupd] at hgp
              dsimp only at hgp
              set stP : GState :=
                { st with checks := st.checks.map (gPatch existing.id j
                    e.url e.frequency (e.probes.getD st.defaultProbes)) }
                with hstP
              rcases hrec : gProcess cli snap0 rest stP with ⟨t2, r2⟩
              rw [hrec] at hgp
              simp only [gCons, gOnOk] at hgp
              cases r2 with
              | error exc => simp at hgp
              | ok q2 =>
                obtain ⟨res2, st3⟩ := q2
                simp only at hgp
                injection hgp with ht hok
                injection hok with hok
                injection hok with hres2 hst2
                subst hst2
                subst hres2
                have herr2 : res2.errors = [] := by simpa using herr
                have hwfP : GStateWF stP := by
                  constructor
                  · rw [hstP]
                    simp only [map_gPatch_ids]
                    exact hwf.1
                  · intro c hc
                    rw [hstP] at hc
                    simp only [List.mem_map] at hc
                    obtain ⟨c0, hc0, rfl⟩ := hc
                    rw [gPatch_id]
                    exact hwf.2 c0 hc0
                have hjobuniq : ∀ c ∈ st.checks, c.id = existing.id →
                    c.job = j := by
                  intro c hc hcid
                  have := List.inj_on_of_nodup_map hwf.1 hc hexjob.2 hcid
                  rw [this]
                  exact hexjob.1
                have hframeP : ∀ jx, jx ≠ j →
                    lastWithJob stP.checks jx = lastWithJob st.checks jx
                    := by
                  intro jx hjx
                  rw [hstP]
                  exact lastWithJob_map_gPatch_frame st.checks existing.id j
                    e.url e.frequency (e.probes.getD st.defaultProbes)
                    hwf.1 hjobuniq jx hjx
                have hsnapP : ∀ q ∈ rest,
                    lastWithJob stP.checks q.1 = dictFind snap0 q.1 := by
                  intro q hq
                  have hqj : q.1 ≠ j := by
                    intro hqj
                    exact hjnotin (hqj ▸ List.mem_map_of_mem Prod.fst hq)
                  rw [hframeP q.1 hqj]
                  exact hsnapr q hq
                have hrest := ih stP hwfP hsnapP hkeys2 t2 res2 st3 hrec
                  herr2
                have hselfP : lastWithJob stP.checks j =
                    some (gPatch existing.id j e.url e.frequency
                      (e.probes.getD st.defaultProbes) existing) := by
                  rw [hstP]
                  exact lastWithJob_map_gPatch_self st.checks existing.id j
                    e.url e.frequency (e.probes.getD st.defaultProbes)
                    hwf.1 existing hlast rfl
                refine ⟨hrest.1, ?_, ?_⟩
                · intro q hq hqurl
                  rcases List.mem_cons.mp hq with heq | hq
                  · subst heq
                    refine ⟨gPatch existing.id j e.url e.frequency
                      (e.probes.getD st.defaultProbes) existing,
                      ?_, ?_, ?_, ?_⟩
                    · rw [hrest.2.2 j hjnotin]
                      exact hselfP
                    · simp [gPatch]
                    · simp [gPatch]
                    · intro ps hps
                      dsimp only at hps
                      simp [gPatch, hps]
                  · exact hrest.2.1 q hq hqurl
                · intro jx hjx
                  rw [hmapcons] at hjx
                  have hjxj : jx ≠ j := fun h =>
                    hjx (h ▸ List.mem_cons_self _ _)
                  rw [hrest.2.2 jx
                      (fun h => hjx (List.mem_cons_of_mem _ h)),
                    hframeP jx hjxj]
      | none =>
        rw [hfind] at hgp
        dsimp only at hgp
        cases hcr : cli.createErr j with
        | some err =>
          rw [hcr] at hgp
          dsimp only at hgp
          rcases hrec : gProcess cli snap0 rest st with ⟨t2, r2⟩
          rw [hrec] at hgp
          simp only [gCons, gOnOk] at hgp
          cases r2 with
          | error exc => simp at hgp
          | ok q2 =>
            obtain ⟨res2, st3⟩ := q2
            simp only at hgp
            injection hgp with ht hok
            injection hok with hok
            injection hok with hres2 hst2
            subst hres2
            simp at herr
        | none =>
          rw [hcr] at hgp
          dsimp only at hgp
          set newC : GCheck :=
            { id := st.nextId, job := j, target := e.url,
              frequency := e.frequency,
              probes := e.probes.getD st.defaultProbes } with hnewC
          set stC : GState :=
            { st with checks := st.checks ++ [newC],
                      nextId := st.nextId + 1 } with hstC
          rcases hrec : gProcess cli snap0 rest stC with ⟨t2, r2⟩
          rw [hrec] at hgp
          simp only [gCons, gOnOk] at hgp
          cases r2 with
          | error exc => simp at hgp
          | ok q2 =>
            obtain ⟨res2, st3⟩ := q2
            simp only at hgp
            injection hgp with ht hok
            injection hok with hok
            injection hok with hres2 hst2
            subst hst2
            subst hres2
            have herr2 : res2.errors = [] := by simpa using herr
            have hwfC : GStateWF stC := by
              constructor
              · rw [hstC]
                simp only [List.map_append, List.map_cons, List.map_nil]
                rw [List.nodup_append]
                refine ⟨hwf.1, by simp, ?_⟩
                intro a ha hb
                obtain ⟨c0, hc0, rfl⟩ := List.mem_map.mp ha
                simp only [List.mem_singleton] at hb
                have hlt := hwf.2 c0 hc0
                rw [hb] at hlt
                simp [hnewC] at hlt
              · intro c hc
                rw [hstC] at hc
                rcases List.mem_append.mp hc with hc | hc
                · exact Nat.lt_succ_of_lt (hwf.2 c hc)
                · simp only [List.mem_singleton] at hc
                  subst hc
                  simp [hnewC, hstC]
            have hframeC : ∀ jx, jx ≠ j →
                lastWithJob stC.checks jx = lastWithJob st.checks jx := by
              intro jx hjx
              rw [hstC]
              dsimp only
              rw [lastWithJob_append_one]
              have hne : ¬ (newC.job == jx) = true := by
                simp [hnewC, Ne.symm hjx]
              simp [hne]
            have hsnapC : ∀ q ∈ rest,
                lastWithJob stC.checks q.1 = dictFind snap0 q.1 := by
              intro q hq
              have hqj : q.1 ≠ j := by
                intro hqj
                exact hjnotin (hqj ▸ List.mem_map_of_mem Prod.fst hq)
              rw [hframeC q.1 hqj]
              exact hsnapr q hq
            have hrest := ih stC hwfC hsnapC hkeys2 t2 res2 st3 hrec herr2
            have hselfC : lastWithJob stC.checks j = some newC := by
              rw [hstC]
              dsimp only
              rw [lastWithJob_append_one]
              simp [hnewC]
            refine ⟨hrest.1, ?_, ?_⟩
            · intro q hq hqurl
              rcases List.mem_cons.mp hq with heq | hq
              · subst heq
                refine ⟨newC, ?_, by simp [hnewC], by simp [hnewC], ?_⟩
                · rw [hrest.2.2 j hjnotin]
                  exact hselfC
                · intro ps hps
                  dsimp only at hps
                  simp [hnewC, hps]
              · exact hrest.2.1 q hq hqurl
            · intro jx hjx
              rw [hmapcons] at hjx
              have hjxj : jx ≠ j := fun h =>
                hjx (h ▸ List.mem_cons_self _ _)
              rw [hrest.2.2 jx (fun h => hjx (List.mem_cons_of_mem _ h)),
                hframeC jx hjxj]
/-- Second-pass no-op: over a snapshot of the current state, a desired
list whose every live endpoint is already converged (and declares a
probes list) makes the desired-jobs loop issue nothing and leave the
state untouched. -/
theorem gProcess_converged_noop (cli : GClient) (st : GState) :
    ∀ eps : List (String × Endpoint),
    (∀ p ∈ eps, p.2.url ≠ "" → gConverged st p.1 p.2) →
    (∀ p ∈ eps, p.2.probes ≠ none) →
    gProcess cli (buildJobDict st.checks) eps st =
      ([], Except.ok ({}, st)) := by
  intro eps
  induction eps with
  | nil => intro _ _; rfl
  | cons p rest ih =>
    intro hconv hprobes
    obtain ⟨j, e⟩ := p
    have hconvr : ∀ q ∈ rest, q.2.url ≠ "" → gConverged st q.1 q.2 :=
      fun q hq => hconv q (List.mem_cons_of_mem _ hq)
    have hprobesr : ∀ q ∈ rest, q.2.probes ≠ none :=
      fun q hq => hprobes q (List.mem_cons_of_mem _ hq)
    simp only [gProcess]
    by_cases hurl : e.url = ""
    · rw [if_pos hurl]
      exact ih hconvr hprobesr
    · rw [if_neg hurl]
      obtain ⟨c, hc, ht, hf, hps⟩ :=
        hconv (j, e) (List.mem_cons_self _ _) hurl
    -- the snapshot lookup returns exactly the converged check
      rw [dictFind_buildJobDict, hc]
      dsimp only
      cases hep : e.probes with
      | none =>
        exact absurd hep (hprobes (j, e) (List.mem_cons_self _ _))
      | some ps =>
        rw [gNeedsUpdate_of_converged c e ps ht hf hep (hps ps hep)]
        dsimp only
        exact ih hconvr hprobesr
/-- A clean first pass of `reconcile_grafana` with deletions gated off
converges every live endpoint, so an immediately following pass issues
only the initial listing call, reports an empty result and leaves the
remote state exactly as the first pass left it. -/
theorem reconcile_grafana_idempotent (cli : GClient)
    (eps : List (String × Endpoint)) (st0 : GState)
    (hwf : GStateWF st0)
    (hkeys : (eps.map Prod.fst).Nodup)
    (hprobes : ∀ p ∈ eps, p.2.probes ≠ none)
    (tr1 : List GAction) (res1 : GResult) (st1 : GState)
    (hrun1 : reconcile_grafana cli false eps st0 =
      (tr1, Except.ok (res1, st1)))
    (herr : res1.errors = []) :
    reconcile_grafana cli false eps st1 =
      ([GAction.listChecks], Except.ok ({}, st1)) := by
  unfold reconcile_grafana at hrun1 ⊢
  cases hlist : cli.listErr with
  | some e =>
    rw [hlist] at hrun1
    injection hrun1 with htr hok
    injection hok with hok
    injection hok with hres hst
    subst hres
    simp at herr
  | none =>
    rw [hlist] at hrun1
    dsimp only at hrun1 ⊢
    rcases hp1 : gProcess cli (buildJobDict st0.checks) eps st0
      with ⟨t1, r1⟩
    rw [hp1] at hrun1
    cases r1 with
    | error exc => simp at hrun1
    | ok q =>
      obtain ⟨res1x, st1x⟩ := q
      dsimp only at hrun1
      rw [gOrphanLoop_guard cli (eps.map Prod.fst)] at hrun1
      dsimp only at hrun1
      injection hrun1 with htr hok
      injection hok with hok
      injection hok with hres hst
      subst hst
      subst hres
      have herrx : res1x.errors = [] := by
        simpa [gResConcat] using herr
      have hchar := gProcess_run_characterization cli
        (buildJobDict st0.checks) eps st0 hwf
        (fun p _ => (dictFind_buildJobDict st0.checks p.1).symm)
        hkeys t1 res1x st1x hp1 herrx
      rw [gProcess_converged_noop cli st1x eps hchar.2.1 hprobes]
      dsimp only
      rw [gOrphanLoop_guard cli (eps.map Prod.fst)]
      rfl
/-- One desired job's mapping entry is settled against a remote state: it
stores exactly the endpoint's display name, a non-empty id of an existing
component, and a metric id that is non-empty and refers to an existing
metric exactly when the endpoint wants a metric. -/
def spEntrySettled (st : SpState) (o : Option MapEntry) (name : String)
    (wants : Bool) : Prop :=
  ∃ cid mid,
    o = some { name := some name, component_id := some cid,
               metric_id := some mid } ∧
    cid ≠ "" ∧ compIdExists st cid = true ∧
    (wants = true → mid ≠ "" ∧ metricIdExists st mid = true) ∧
    (wants = false → mid = "")
theorem spEntrySettled_mono {st st' : SpState} (h : spGrows st st')
    {o : Option MapEntry} {name : String} {wants : Bool}
    (hs : spEntrySettled st o name wants) :
    spEntrySettled st' o name wants := by
  obtain ⟨cid, mid, h1, h2, h3, h4, h5⟩ := hs
  exact ⟨cid, mid, h1, h2, h.1 _ h3,
    fun hw => ⟨(h4 hw).1, h.2 _ (h4 hw).2⟩, h5⟩
theorem compIdExists_of_mem {st : SpState} {c : SpComp}
    (h : c ∈ st.components) : compIdExists st c.id = true := by
  simp only [compIdExists, List.any_eq_true]
  exact ⟨c, h, by simp⟩
theorem metricIdExists_of_mem {st : SpState} {m : SpMetric}
    (h : m ∈ st.metrics) : metricIdExists st m.id = true := by
  simp only [metricIdExists, List.any_eq_true]
  exact ⟨m, h, by simp⟩
theorem compIdExists_contains {st : SpState} {i : String}
    (h : compIdExists st i = true) :
    (st.components.map SpComp.id).contains i = true := by
  simp only [compIdExists, List.any_eq_true] at h
  obtain ⟨c, hc, hbeq⟩ := h
  have hic : c.id = i := by simpa using hbeq
  subst hic
  rw [List.contains_iff_exists_mem_beq]
  exact ⟨c.id, List.mem_map_of_mem _ hc, by simp⟩
theorem metricIdExists_contains {st : SpState} {i : String}
    (h : metricIdExists st i = true) :
    (st.metrics.map SpMetric.id).contains i = true := by
  simp only [metricIdExists, List.any_eq_true] at h
  obtain ⟨m, hm, hbeq⟩ := h
  have him : m.id = i := by simpa using hbeq
  subst him
  rw [List.contains_iff_exists_mem_beq]
  exact ⟨m.id, List.mem_map_of_mem _ hm, by simp⟩
theorem compNameDict_mem {cs : List SpComp} {n : String} {c : SpComp}
    (h : dictFind (buildCompNameDict cs) n = some c) : c ∈ cs := by
  rcases dictFind_foldl_dict_mem (fun c : SpComp => c.name) cs [] n c h
    with h1 | h1
  · exact h1
  · simp [dictFind] at h1
theorem metricNameDict_mem {ms : List SpMetric} {n : String} {m : SpMetric}
    (h : dictFind (buildMetricNameDict ms) n = some m) : m ∈ ms := by
  rcases dictFind_foldl_dict_mem (fun m : SpMetric => m.name) ms [] n m h
    with h1 | h1
  · exact h1
  · simp [dictFind] at h1
theorem freshCompId_ne_empty (n : Nat) : freshCompId n ≠ "" := by
  intro h
  have hlen := congrArg String.length h
  rw [freshCompId, String.length_append] at hlen
  have h11 : ("generated-c" : String).length = 11 := rfl
  have h0 : ("" : String).length = 0 := rfl
  rw [h11, h0] at hlen
  omega
theorem freshMetricId_ne_empty (n : Nat) : freshMetricId n ≠ "" := by
  intro h
  have hlen := congrArg String.length h
  rw [freshMetricId, String.length_append] at hlen
  have h11 : ("generated-m" : String).length = 11 := rfl
  have h0 : ("" : String).length = 0 := rfl
  rw [h11, h0] at hlen
  omega
/-- A warning-free metric half of one desired-loop iteration settles the
job's mapping entry (given a resolved, existing component id). -/
theorem spMetricPart_settles (cli : SpRecClient)
    (mbn : List (String × SpMetric)) (j name : String) (wants : Bool)
    (mid cid : String) (st : SpState) (mapping : List (String × MapEntry))
    (hmbn : ∀ n mt, dictFind mbn n = some mt →
      mt.id ≠ "" ∧ metricIdExists st mt.id = true)
    (hcid : cid ≠ "") (hcex : compIdExists st cid = true)
    (hmid : wants = true → mid = "" ∨
      (mid ≠ "" ∧ metricIdExists st mid = true))
    (hw : (spMetricPart cli mbn j name wants mid cid st
      mapping).2.1.warnings = []) :
    spGrows st (spMetricPart cli mbn j name wants mid cid st
      mapping).2.2.1 ∧
    spEntrySettled (spMetricPart cli mbn j name wants mid cid st
        mapping).2.2.1
      (dictFind (spMetricPart cli mbn j name wants mid cid st
        mapping).2.2.2 j) name wants := by
  revert hw
  unfold spMetricPart
  dsimp only
  split
  · rename_i hcond
    have hcondp : wants = true ∧ mid = "" := by simpa using hcond
    split
    · rename_i mt hmt
      intro _
      refine ⟨spGrows_refl st, ?_⟩
      rw [dictFind_insert_self]
      refine ⟨cid, mt.id, ?_, hcid, hcex, ?_, ?_⟩
      · simp [storedMetricId, hcondp.1]
      · intro _
        exact hmbn _ _ hmt
      · intro hwf
        exact absurd hcondp.1 (by simp [hwf])
    · split
      · intro _
        have hgrow : spGrows st { st with
            metrics := st.metrics ++
              [{ id := freshMetricId st.nextId,
                 name := name ++ " Latency" }]
            nextId := st.nextId + 1 } := by
          constructor
          · intro i h
            simpa [compIdExists] using h
          · intro i h
            simp only [metricIdExists, List.any_append, Bool.or_eq_true]
            exact Or.inl h
        refine ⟨hgrow, ?_⟩
        rw [dictFind_insert_self]
        refine ⟨cid, freshMetricId st.nextId, ?_, hcid,
          hgrow.1 _ hcex, ?_, ?_⟩
        · simp [storedMetricId, hcondp.1]
        · intro _
          refine ⟨freshMetricId_ne_empty _, ?_⟩
          simp [metricIdExists, List.any_append]
        · intro hwf
          exact absurd hcondp.1 (by simp [hwf])
      · intro hw
        simp at hw
  · rename_i hcond
    intro _
    refine ⟨spGrows_refl st, ?_⟩
    rw [dictFind_insert_self]
    cases hwv : wants with
    | false =>
      refine ⟨cid, "", ?_, hcid, hcex, ?_, fun _ => rfl⟩
      · simp [storedMetricId, hwv]
      · intro h
        exact absurd h (by simp)
    | true =>
      have hmidne : mid ≠ "" := by
        intro hme
        rw [hwv, hme] at hcond
        simp at hcond
      rcases hmid hwv with h | h
      · exact absurd h hmidne
      refine ⟨cid, mid, ?_, hcid, hcex, fun _ => h, ?_⟩
      · simp [storedMetricId, hwv]
      · intro hf
        exact absurd hf (by simp)
/-- An error- and warning-free desired-loop iteration settles the job's
mapping entry against the post-iteration state. -/
theorem spJobStep_settles (cli : SpRecClient)
    (cbn : List (String × SpComp)) (cids : List String)
    (mbn : List (String × SpMetric)) (mids : List String) (j : String)
    (e : Endpoint) (st : SpState) (mapping : List (String × MapEntry))
    (hcbn : ∀ n c, dictFind cbn n = some c →
      c.id ≠ "" ∧ compIdExists st c.id = true)
    (hcids : ∀ i, cids.contains i = true → compIdExists st i = true)
    (hmbn : ∀ n mt, dictFind mbn n = some mt →
      mt.id ≠ "" ∧ metricIdExists st mt.id = true)
    (hmids : ∀ i, mids.contains i = true → metricIdExists st i = true)
    (herr : (spJobStep cli cbn cids mbn mids j e st mapping).2.1.errors
      = [])
    (hw : (spJobStep cli cbn cids mbn mids j e st mapping).2.1.warnings
      = []) :
    spGrows st (spJobStep cli cbn cids mbn mids j e st mapping).2.2.1 ∧
    spEntrySettled (spJobStep cli cbn cids mbn mids j e st
        mapping).2.2.1
      (dictFind (spJobStep cli cbn cids mbn mids j e st mapping).2.2.2 j)
      e.name e.metric := by
  have hmidany : ∀ s, e.metric = true → spValidatedId s mids = "" ∨
      (spValidatedId s mids ≠ "" ∧
        metricIdExists st (spValidatedId s mids) = true) := by
    intro s _
    by_cases hz : spValidatedId s mids = ""
    · exact Or.inl hz
    · rcases spValidatedId_spec s mids with h | ⟨h1, h2⟩
      · exact absurd h hz
      · right
        refine ⟨hz, ?_⟩
        rw [h1]
        exact hmids s h2
  revert herr hw
  unfold spJobStep
  dsimp only
  split
  · split
    · rename_i c hc
      intro _ hw
      exact spMetricPart_settles cli mbn j e.name e.metric _ c.id st
        mapping hmbn (hcbn _ _ hc).1 (hcbn _ _ hc).2 (hmidany _) hw
    · split
      · intro herr hw
        simp only [spJobCons, spResConcat] at herr hw ⊢
        simp only [List.nil_append] at hw
        have hgrow : spGrows st { st with
            components := st.components ++
              [{ id := freshCompId st.nextId, name := e.name }]
            nextId := st.nextId + 1 } := by
          constructor
          · intro i h
            simp only [compIdExists, List.any_append, Bool.or_eq_true]
            exact Or.inl h
          · intro i h
            exact h
        have hpart := spMetricPart_settles cli mbn j e.name e.metric _
          (freshCompId st.nextId)
          { st with
            components := st.components ++
              [{ id := freshCompId st.nextId, name := e.name }]
            nextId := st.nextId + 1 }
          mapping hmbn (freshCompId_ne_empty _)
          (by simp [compIdExists, List.any_append]) (hmidany _) hw
        exact ⟨spGrows_trans hgrow hpart.1, hpart.2⟩
      · intro herr _
        simp at herr
  · rename_i hcomp
    intro _ hw
    have hne : spValidatedId
        ((((dictFind mapping j).getD {}).component_id).getD "") cids
        ≠ "" := by simpa using hcomp
    rcases spValidatedId_spec
        ((((dictFind mapping j).getD {}).component_id).getD "") cids
      with hv | ⟨hv1, hv2⟩
    · exact absurd hv hne
    · refine spMetricPart_settles cli mbn j e.name e.metric _ _ st
        mapping hmbn hne ?_ (hmidany _) hw
      rw [hv1]
      exact hcids _ hv2
theorem spValidatedId_of_contains (s : String) (ids : List String)
    (h : ids.contains s = true) : spValidatedId s ids = s := by
  unfold spValidatedId
  rw [h]
  simp
theorem spValidatedId_empty (ids : List String) :
    spValidatedId "" ids = "" := by
  unfold spValidatedId
  simp
/-- When the metric half has nothing to do (`wants_metric` unset or a
surviving stored id), it issues nothing and only rewrites the entry. -/
theorem spMetricPart_noop (cli : SpRecClient)
    (mbn : List (String × SpMetric)) (j name : String) (wants : Bool)
    (mid cid : String) (st : SpState) (mapping : List (String × MapEntry))
    (hcond : (wants && (mid == "")) = false) :
    spMetricPart cli mbn j name wants mid cid st mapping =
      ([], {}, st, dictInsert mapping j
        { name := some name, component_id := some cid,
          metric_id := some (storedMetricId wants mid) }) := by
  unfold spMetricPart
  dsimp only
  rw [if_neg (by simp [hcond])]
/-- A settled job's desired-loop iteration issues nothing, leaves the
remote state untouched and rewrites the mapping entry with its current
value. -/
theorem spJobStep_noop (cli : SpRecClient)
    (cbn : List (String × SpComp)) (mbn : List (String × SpMetric))
    (j : String) (e : Endpoint) (st : SpState)
    (mapping : List (String × MapEntry))
    (hset : spEntrySettled st (dictFind mapping j) e.name e.metric) :
    ∃ v, dictFind mapping j = some v ∧
      spJobStep cli cbn (st.components.map SpComp.id) mbn
          (st.metrics.map SpMetric.id) j e st mapping =
        ([], {}, st, dictInsert mapping j v) := by
  obtain ⟨cid, mid, hfind, hcne, hcex, hmw, hmnw⟩ := hset
  refine ⟨_, hfind, ?_⟩
  unfold spJobStep
  dsimp only
  rw [hfind]
  dsimp only [Option.getD]
  rw [spValidatedId_of_contains _ _ (compIdExists_contains hcex)]
  rw [if_neg (show ¬((cid == "") = true) by simpa using hcne)]
  cases hm : e.metric with
  | true =>
    obtain ⟨hmne, hmex⟩ := hmw hm
    rw [spValidatedId_of_contains _ _ (metricIdExists_contains hmex)]
    rw [spMetricPart_noop _ _ _ _ _ _ _ _ _ (by simp [hmne])]
    rfl
  | false =>
    have hm0 : mid = "" := hmnw hm
    subst hm0
    rw [spValidatedId_empty]
    rw [spMetricPart_noop _ _ _ _ _ _ _ _ _ (by simp)]
    rfl
theorem spDesiredLoop_cons (cli : SpRecClient)
    (cbn : List (String × SpComp)) (cids : List String)
    (mbn : List (String × SpMetric)) (mids : List String)
    (j : String) (e : Endpoint) (rest : List (String × Endpoint))
    (st : SpState) (mapping : List (String × MapEntry))
    (t1 : List SpRecAction) (r1 : SpRecResult) (st1 : SpState)
    (m1 : List (String × MapEntry))
    (hstep : spJobStep cli cbn cids mbn mids j e st mapping
      = (t1, r1, st1, m1)) :
    spDesiredLoop cli cbn cids mbn mids ((j, e) :: rest) st mapping =
      (t1 ++ (spDesiredLoop cli cbn cids mbn mids rest st1 m1).1,
       spResConcat r1
         (spDesiredLoop cli cbn cids mbn mids rest st1 m1).2.1,
       (spDesiredLoop cli cbn cids mbn mids rest st1 m1).2.2.1,
       (spDesiredLoop cli cbn cids mbn mids rest st1 m1).2.2.2) := by
  simp only [spDesiredLoop]
  rw [hstep]
/-- An error- and warning-free pass of the desired-jobs loop settles every
desired job's mapping entry against the final state (distinct job labels
assumed, as keys of the endpoints dict). -/
theorem spDesiredLoop_settles (cli : SpRecClient)
    (cbn : List (String × SpComp)) (cids : List String)
    (mbn : List (String × SpMetric)) (mids : List String) :
    ∀ (eps : List (String × Endpoint)) (st : SpState)
      (mapping : List (String × MapEntry)),
      (∀ n c, dictFind cbn n = some c →
        c.id ≠ "" ∧ compIdExists st c.id = true) →
      (∀ i, cids.contains i = true → compIdExists st i = true) →
      (∀ n mt, dictFind mbn n = some mt →
        mt.id ≠ "" ∧ metricIdExists st mt.id = true) →
      (∀ i, mids.contains i = true → metricIdExists st i = true) →
      (eps.map Prod.fst).Nodup →
      (spDesiredLoop cli cbn cids mbn mids eps st mapping).2.1.errors
        = [] →
      (spDesiredLoop cli cbn cids mbn mids eps st mapping).2.1.warnings
        = [] →
      spGrows st (spDesiredLoop cli cbn cids mbn mids eps st
        mapping).2.2.1 ∧
      ∀ p ∈ eps,
        spEntrySettled
          (spDesiredLoop cli cbn cids mbn mids eps st mapping).2.2.1
          (dictFind (spDesiredLoop cli cbn cids mbn mids eps st
            mapping).2.2.2 p.1) p.2.name p.2.metric := by
  intro eps
  induction eps with
  | nil =>
    intro st mapping _ _ _ _ _ _ _
    exact ⟨spGrows_refl st, fun p hp => absurd hp (List.not_mem_nil p)⟩
  | cons p rest ih =>
    intro st mapping hcbn hcids hmbn hmids hnd herr hw
    obtain ⟨j, e⟩ := p
    have hmapcons : (((j, e) :: rest).map Prod.fst) =
      j :: rest.map Prod.fst := rfl
    rw [hmapcons] at hnd
    have hnd2 : (rest.map Prod.fst).Nodup := (List.nodup_cons.mp hnd).2
    have hjnotin : j ∉ rest.map Prod.fst := (List.nodup_cons.mp hnd).1
    rcases hstep : spJobStep cli cbn cids mbn mids j e st mapping
      with ⟨t1, r1, st1, m1⟩
    rw [spDesiredLoop_cons cli cbn cids mbn mids j e rest st mapping
      t1 r1 st1 m1 hstep] at herr hw ⊢
    rcases hrest : spDesiredLoop cli cbn cids mbn mids rest st1 m1
      with ⟨t2, r2, st2, m2⟩
    rw [hrest] at herr hw
    dsimp only at herr hw ⊢
    have herr12 : r1.errors = [] ∧ r2.errors = [] := by
      simp only [spResConcat] at herr
      exact List.append_eq_nil.mp herr
    have hw12 : r1.warnings = [] ∧ r2.warnings = [] := by
      simp only [spResConcat] at hw
      exact List.append_eq_nil.mp hw
    have h1 := spJobStep_settles cli cbn cids mbn mids j e st mapping
      hcbn hcids hmbn hmids
      (by rw [hstep]; exact herr12.1) (by rw [hstep]; exact hw12.1)
    rw [hstep] at h1
    dsimp only at h1
    have h2 := ih st1 m1
      (fun n c h => ⟨(hcbn n c h).1, h1.1.1 _ (hcbn n c h).2⟩)
      (fun i h => h1.1.1 i (hcids i h))
      (fun n mt h => ⟨(hmbn n mt h).1, h1.1.2 _ (hmbn n mt h).2⟩)
      (fun i h => h1.1.2 i (hmids i h))
      hnd2 (by rw [hrest]; exact herr12.2) (by rw [hrest]; exact hw12.2)
    rw [hrest] at h2
    dsimp only at h2
    refine ⟨spGrows_trans h1.1 h2.1, ?_⟩
    intro q hq
    rcases List.mem_cons.mp hq with hq1 | hq1
    · subst hq1
      have hkey : ∀ p ∈ rest, p.1 ≠ j := by
        intro p hp hpj
        exact hjnotin (hpj ▸ List.mem_map_of_mem Prod.fst hp)
      have hfr := spDesiredLoop_find_frame cli cbn cids mbn mids rest
        st1 m1 j hkey
      rw [hrest] at hfr
      dsimp only at hfr
      rw [hfr]
      exact spEntrySettled_mono h2.1 h1.2
    · exact h2.2 q hq1
/-- Second-pass no-op: when every desired job is already settled against
the current state and the id snapshots are taken from that same state,
the desired-jobs loop issues nothing, records nothing, leaves the state
untouched and keeps the mapping pointwise unchanged. -/
theorem spDesiredLoop_noop (cli : SpRecClient)
    (cbn : List (String × SpComp)) (mbn : List (String × SpMetric))
    (st : SpState) :
    ∀ (eps : List (String × Endpoint))
      (mapping : List (String × MapEntry)),
      (∀ p ∈ eps, spEntrySettled st (dictFind mapping p.1)
        p.2.name p.2.metric) →
      (spDesiredLoop cli cbn (st.components.map SpComp.id) mbn
        (st.metrics.map SpMetric.id) eps st mapping).1 = [] ∧
      (spDesiredLoop cli cbn (st.components.map SpComp.id) mbn
        (st.metrics.map SpMetric.id) eps st mapping).2.1 = {} ∧
      (spDesiredLoop cli cbn (st.components.map SpComp.id) mbn
        (st.metrics.map SpMetric.id) eps st mapping).2.2.1 = st ∧
      ∀ k, dictFind (spDesiredLoop cli cbn (st.components.map SpComp.id)
        mbn (st.metrics.map SpMetric.id) eps st mapping).2.2.2 k =
        dictFind mapping k := by
  intro eps
  induction eps with
  | nil =>
    intro mapping _
    exact ⟨rfl, rfl, rfl, fun k => rfl⟩
  | cons p rest ih =>
    intro mapping hset
    obtain ⟨j, e⟩ := p
    obtain ⟨v, hv, hstep⟩ := spJobStep_noop cli cbn mbn j e st mapping
      (hset (j, e) (List.mem_cons_self _ _))
    rw [spDesiredLoop_cons cli cbn (st.components.map SpComp.id) mbn
      (st.metrics.map SpMetric.id) j e rest st mapping _ _ _ _ hstep]
    have hpt : ∀ k, dictFind (dictInsert mapping j v) k =
        dictFind mapping k := by
      intro k
      by_cases hk : k = j
      · subst hk
        rw [dictFind_insert_self, hv]
      · exact dictFind_insert_ne _ _ _ _ hk
    have hsetr : ∀ p ∈ rest, spEntrySettled st
        (dictFind (dictInsert mapping j v) p.1) p.2.name p.2.metric := by
      intro p hp
      rw [hpt p.1]
      exact hset p (List.mem_cons_of_mem _ hp)
    have h2 := ih (dictInsert mapping j v) hsetr
    rcases hrest : spDesiredLoop cli cbn (st.components.map SpComp.id)
        mbn (st.metrics.map SpMetric.id) rest st (dictInsert mapping j v)
      with ⟨t2, r2, st2, m2⟩
    rw [hrest] at h2
    dsimp only at h2 ⊢
    refine ⟨h2.1, ?_, h2.2.2.1, fun k => (h2.2.2.2 k).trans (hpt k)⟩
    rw [h2.2.1]
    rfl
/-- Evaluation of `reconcile_statuspage` when both listings succeed, in
terms of its two loops. -/
theorem reconcile_statuspage_clean (cli : SpRecClient) (allow : Bool)
    (eps : List (String × Endpoint)) (st : SpState)
    (m : List (String × MapEntry)) (t1 : List SpRecAction)
    (r1 : SpRecResult) (st1 : SpState) (m1 : List (String × MapEntry))
    (t2 : List SpRecAction) (r2 : SpRecResult) (st2 : SpState)
    (m2 : List (String × MapEntry))
    (hlc : cli.listComponentsErr = none)
    (hlm : cli.listMetricsErr = none)
    (hloop : spDesiredLoop cli (buildCompNameDict st.components)
      (st.components.map SpComp.id) (buildMetricNameDict st.metrics)
      (st.metrics.map SpMetric.id)
      (eps.filter (fun p => p.2.component)) st m = (t1, r1, st1, m1))
    (horph : spOrphanLoop cli allow
      ((eps.filter (fun p => p.2.component)).map Prod.fst) m1 st1 m1 =
      (t2, r2, st2, m2)) :
    reconcile_statuspage cli allow eps st m =
      (SpRecAction.listComponents :: SpRecAction.listMetrics ::
        (t1 ++ t2),
       spResConcat { warnings := [] } (spResConcat r1 r2), st2, m2) := by
  unfold reconcile_statuspage
  rw [hlc]
  dsimp only
  rw [hlm]
  dsimp only
  rw [hloop]
  dsimp only
  rw [horph]
/-- A clean first pass of `reconcile_statuspage` with deletions gated off
settles every desired entry, so an immediately following pass issues only
the two listing calls, reports an empty result, leaves the remote state
unchanged and keeps the mapping pointwise intact. -/
theorem reconcile_statuspage_idempotent (cli : SpRecClient)
    (eps : List (String × Endpoint)) (st0 : SpState)
    (m0 : List (String × MapEntry))
    (hwfc : ∀ c ∈ st0.components, c.id ≠ "")
    (hwfm : ∀ mt ∈ st0.metrics, mt.id ≠ "")
    (hkeys : (eps.map Prod.fst).Nodup)
    (tr1 : List SpRecAction) (r1 : SpRecResult) (st1 : SpState)
    (m1 : List (String × MapEntry))
    (hrun1 : reconcile_statuspage cli false eps st0 m0 =
      (tr1, r1, st1, m1))
    (herr : r1.errors = []) (hw : r1.warnings = []) :
    (reconcile_statuspage cli false eps st1 m1).1 =
      [SpRecAction.listComponents, SpRecAction.listMetrics] ∧
    (reconcile_statuspage cli false eps st1 m1).2.1 = {} ∧
    (reconcile_statuspage cli false eps st1 m1).2.2.1 = st1 ∧
    ∀ k, dictFind (reconcile_statuspage cli false eps st1 m1).2.2.2 k =
      dictFind m1 k := by
  cases hlc : cli.listComponentsErr with
  | some e =>
    unfold reconcile_statuspage at hrun1
    rw [hlc] at hrun1
    injection hrun1 with h1 h234
    injection h234 with h2 h34
    subst h2
    simp at herr
  | none =>
    cases hlm : cli.listMetricsErr with
    | some e =>
      unfold reconcile_statuspage at hrun1
      rw [hlc] at hrun1
      dsimp only at hrun1
      rw [hlm] at hrun1
      dsimp only at hrun1
      rcases hdl : spDesiredLoop cli (buildCompNameDict st0.components)
          (st0.components.map SpComp.id) (buildMetricNameDict [])
          (([] : List SpMetric).map SpMetric.id)
          (eps.filter (fun p => p.2.component)) st0 m0
        with ⟨t1d, r1d, st1d, m1d⟩
      rw [hdl] at hrun1
      dsimp only at hrun1
      rw [spOrphanLoop_guard cli
        ((eps.filter (fun p => p.2.component)).map Prod.fst)] at hrun1
      dsimp only at hrun1
      injection hrun1 with h1 h234
      injection h234 with h2 h34
      subst h2
      simp [spResConcat] at hw
    | none =>
      rcases hdl : spDesiredLoop cli (buildCompNameDict st0.components)
          (st0.components.map SpComp.id)
          (buildMetricNameDict st0.metrics)
          (st0.metrics.map SpMetric.id)
          (eps.filter (fun p => p.2.component)) st0 m0
        with ⟨t1d, r1d, st1d, m1d⟩
      rw [reconcile_statuspage_clean cli false eps st0 m0 t1d r1d st1d
        m1d _ _ _ _ hlc hlm hdl (spOrphanLoop_guard cli
          ((eps.filter (fun p => p.2.component)).map Prod.fst) m1d st1d
          m1d)] at hrun1
      injection hrun1 with h1 h234
      injection h234 with h2 h34
      injection h34 with h3 h4
      rw [← h3, ← h4]
      rw [← h2] at herr hw
      have herrd : r1d.errors = [] := by
        simpa [spResConcat] using herr
      have hwd : r1d.warnings = [] := by
        simpa [spResConcat] using hw
      have hsub : ((eps.filter (fun p => p.2.component)).map
          Prod.fst).Sublist (eps.map Prod.fst) :=
        List.Sublist.map Prod.fst (List.filter_sublist eps)
      have hndd := List.Nodup.sublist hsub hkeys
      have hS := spDesiredLoop_settles cli
        (buildCompNameDict st0.components) (st0.components.map SpComp.id)
        (buildMetricNameDict st0.metrics) (st0.metrics.map SpMetric.id)
        (eps.filter (fun p => p.2.component)) st0 m0
        (fun n c h => ⟨hwfc c (compNameDict_mem h),
          compIdExists_of_mem (compNameDict_mem h)⟩)
        (compSnapshot_sound st0)
        (fun n mt h => ⟨hwfm mt (metricNameDict_mem h),
          metricIdExists_of_mem (metricNameDict_mem h)⟩)
        (metricSnapshot_sound st0)
        hndd (by rw [hdl]; exact herrd) (by rw [hdl]; exact hwd)
      rw [hdl] at hS
      dsimp only at hS
      rcases hdl2 : spDesiredLoop cli (buildCompNameDict st1d.components)
          (st1d.components.map SpComp.id)
          (buildMetricNameDict st1d.metrics)
          (st1d.metrics.map SpMetric.id)
          (eps.filter (fun p => p.2.component)) st1d m1d
        with ⟨t2a, r2a, st2a, m2a⟩
      have h2n := spDesiredLoop_noop cli
        (buildCompNameDict st1d.components)
        (buildMetricNameDict st1d.metrics) st1d
        (eps.filter (fun p => p.2.component)) m1d hS.2
      rw [hdl2] at h2n
      dsimp only at h2n
      have hst2a : st2a = st1d := h2n.2.2.1
      subst hst2a
      rw [reconcile_statuspage_clean cli false eps st2a m1d t2a r2a st2a
        m2a _ _ _ _ hlc hlm hdl2 (spOrphanLoop_guard cli
          ((eps.filter (fun p => p.2.component)).map Prod.fst) m2a st2a
          m2a)]
      refine ⟨?_, ?_, rfl, ?_⟩
      · rw [h2n.1]
        rfl
      · rw [h2n.2.1]
        rfl
      · intro k
        exact h2n.2.2.2 k
/-- C6 counterexample (to the claim as stated, for every configuration):
for an endpoint whose config declares no `probes` list, a first
`reconcile_grafana` pass succeeds cleanly (it creates the check with the
default probes), but the immediate second pass crashes with
`TypeError: sorted() argument of type NoneType is not iterable` inside
`needs_update` instead of producing an empty result: once target and
frequency match, `sorted(endpoint.get("probes"))` runs on `None`. -/
theorem C6_counterexample :
    reconcile_grafana {} false
        [("web", { name := "Web", url := "https://x" })]
        { defaultProbes := [1] } =
      ([GAction.listChecks,
        GAction.createCheck "web" "https://x" 60000 [1]],
       Except.ok ({ created := ["web"] },
         { checks := [{ id := 0, job := "web", target := "https://x",
                        frequency := 60000, probes := [1] }],
           nextId := 1, defaultProbes := [1] })) ∧
    ({ created := ["web"] } : GResult).errors = [] ∧
    reconcile_grafana {} false
        [("web", { name := "Web", url := "https://x" })]
        { checks := [{ id := 0, job := "web", target := "https://x",
                       frequency := 60000, probes := [1] }],
          nextId := 1, defaultProbes := [1] } =
      ([GAction.listChecks], Except.error (PyErr.typeError
        "sorted() argument of type NoneType is not iterable")) :=
  ⟨rfl, rfl, rfl⟩
/-- C6 (amended): reconciliation is idempotent for configurations whose
endpoints all declare a `probes` list and whose job labels are distinct,
starting from a well-formed remote inventory, with the deletion gate off.
After a `reconcile_grafana` pass that returns with no errors, an
immediate second pass issues only the listing call and reports empty
created/updated/deleted/errors lists, leaving the remote state exactly as
the first pass left it; after a `reconcile_statuspage` pass that returns
with no errors and no warnings, an immediate second pass issues only the
two listing calls, reports an empty result, leaves the remote inventory
unchanged and keeps the regenerated mapping pointwise identical.  (In
particular no no-op update is sent for a check whose url, frequency and
order-insensitive probe set already match.)  Without the declared probes
restriction the second Grafana pass instead crashes, see the
counterexample. -/
theorem C6_second_run_is_noop (gcli : GClient) (spcli : SpRecClient)
    (eps : List (String × Endpoint)) (gst0 : GState) (spst0 : SpState)
    (m0 : List (String × MapEntry))
    (hkeys : (eps.map Prod.fst).Nodup)
    (hprobes : ∀ p ∈ eps, p.2.probes ≠ none)
    (hgwf : GStateWF gst0)
    (hwfc : ∀ c ∈ spst0.components, c.id ≠ "")
    (hwfm : ∀ mt ∈ spst0.metrics, mt.id ≠ "")
    (gt1 : List GAction) (gres1 : GResult) (gst1 : GState)
    (hg1 : reconcile_grafana gcli false eps gst0 =
      (gt1, Except.ok (gres1, gst1)))
    (hgerr : gres1.errors = [])
    (tr1 : List SpRecAction) (r1 : SpRecResult) (st1 : SpState)
    (m1 : List (String × MapEntry))
    (hs1 : reconcile_statuspage spcli false eps spst0 m0 =
      (tr1, r1, st1, m1))
    (hserr : r1.errors = []) (hswarn : r1.warnings = []) :
    reconcile_grafana gcli false eps gst1 =
      ([GAction.listChecks], Except.ok ({}, gst1)) ∧
    (reconcile_statuspage spcli false eps st1 m1).1 =
      [SpRecAction.listComponents, SpRecAction.listMetrics] ∧
    (reconcile_statuspage spcli false eps st1 m1).2.1 = {} ∧
    (reconcile_statuspage spcli false eps st1 m1).2.2.1 = st1 ∧
    ∀ k, dictFind (reconcile_statuspage spcli false eps st1 m1).2.2.2 k
      = dictFind m1 k := by
  have hsp := reconcile_statuspage_idempotent spcli eps spst0 m0 hwfc
    hwfm hkeys tr1 r1 st1 m1 hs1 hserr hswarn
  exact ⟨reconcile_grafana_idempotent gcli eps gst0 hgwf hkeys hprobes
    gt1 gres1 gst1 hg1 hgerr, hsp.1, hsp.2.1, hsp.2.2.1, hsp.2.2.2⟩
/-- Closed witness for C6 at a concrete one-endpoint configuration with a
declared probes list and all-succeeding clients. -/
theorem C6_second_run_is_noop_witness :
    (∀ p ∈ [("web",
        ({ name := "Web", url := "https://x", probes := some [1] }
           : Endpoint))],
      p.2.probes ≠ none) ∧
    reconcile_grafana {} false
        [("web", { name := "Web", url := "https://x",
                   probes := some [1] })]
        { checks := [{ id := 0, job := "web", target := "https://x",
                       frequency := 60000, probes := [1] }],
          nextId := 1 } =
      ([GAction.listChecks], Except.ok ({},
        { checks := [{ id := 0, job := "web", target := "https://x",
                       frequency := 60000, probes := [1] }],
          nextId := 1 })) ∧
    (reconcile_statuspage {} false
        [("web", { name := "Web", url := "https://x",
                   probes := some [1] })]
        { components := [{ id := "generated-c0", name := "Web" }],
          metrics := [{ id := "generated-m1", name := "Web Latency" }],
          nextId := 2 }
        [("web", { name := some "Web",
                   component_id := some "generated-c0",
                   metric_id := some "generated-m1" })]).2.1 = {} := by
  have h := C6_second_run_is_noop {} {}
    [("web", { name := "Web", url := "https://x", probes := some [1] })]
    {} {} []
    (by decide) (by decide)
    (by unfold GStateWF; exact ⟨by decide, by decide⟩)
    (by decide) (by decide)
    [GAction.listChecks, GAction.createCheck "web" "https://x" 60000 [1]]
    { created := ["web"] }
    { checks := [{ id := 0, job := "web", target := "https://x",
                   frequency := 60000, probes := [1] }],
      nextId := 1 }
    rfl rfl
    [SpRecAction.listComponents, SpRecAction.listMetrics,
     SpRecAction.createComponent "Web" "",
     SpRecAction.createMetric "Web Latency"]
    { created := ["component:Web", "metric:Web Latency"] }
    { components := [{ id := "generated-c0", name := "Web" }],
      metrics := [{ id := "generated-m1", name := "Web Latency" }],
      nextId := 2 }
    [("web", { name := some "Web", component_id := some "generated-c0",
               metric_id := some "generated-m1" })]
    rfl rfl rfl
  exact ⟨by decide, h.1, h.2.2.1⟩
